import Mathlib

/-
Verification development for the url-to-markdown-pro repository.

The TypeScript sources are shallowly embedded in Lean 4:
* strings are Lean `String`s (JS `.length`, `.slice` and `.includes` act on
  UTF-16 units; every string the claims touch is BMP, where code-unit and
  character counts coincide, so `String.length`, `List.take` and substring
  search on `List Char` model them exactly);
* JS regular-expression `test` is modelled by a small derivative-based
  matcher over pattern ASTs transcribed one-for-one from the source;
* asynchronous adapter calls are modelled by environments mapping a URL to
  the adapter's result record; the completion order of a `Promise.any` race
  is an environment-supplied permutation of the raced strategy list;
* the recursion between `fetchWithStrategies` and the `googlenews`
  strategy is made total with a fuel parameter: `none` means the
  computation did not finish within the given fuel;
* `throw`/`try`/`catch` become `Except String`, caught at the same
  boundaries as in the source;
* platform primitives that are not part of the repository (the GBK text
  decoder, `JSON.stringify`, `new URL` parsing) are parameters of the
  embedded functions.
-/

/-! ## String and character utilities -/

/-- The apostrophe character (several source patterns contain one). -/
def apoC : Char := Char.ofNat 39

/-- The apostrophe as a one-character string. -/
def apoS : String := String.mk [apoC]

/-- `listStarts pat l`: `pat` is a prefix of `l` (JS `String.startsWith`). -/
def listStarts : List Char → List Char → Bool
  | [], _ => true
  | _ :: _, [] => false
  | a :: as, b :: bs => a == b && listStarts as bs

/-- `listHas pat l`: `pat` occurs as a contiguous run in `l`
(JS `String.includes`). -/
def listHas (pat : List Char) : List Char → Bool
  | [] => listStarts pat []
  | c :: cs => listStarts pat (c :: cs) || listHas pat cs

/-- JS `s.includes(sub)`. -/
def strHas (s sub : String) : Bool := listHas sub.toList s.toList

/-- JS `s.startsWith(p)`. -/
def strStarts (s p : String) : Bool := listStarts p.toList s.toList

/-- Lowercase a character list (JS `toLowerCase`, ASCII range). -/
def toLowerL (l : List Char) : List Char := l.map Char.toLower

/-- The whitespace class of JS regular expressions (`\s`), restricted to
the characters that can occur in the texts of this development. -/
def wsChar (c : Char) : Bool :=
  c == ' ' || c == '\t' || c == '\n' || c == '\r' ||
  c == Char.ofNat 11 || c == Char.ofNat 12 || c == Char.ofNat 160

/-- JS `String.prototype.trim` on a character list. -/
def jsTrimL (l : List Char) : List Char :=
  ((l.dropWhile (fun c => wsChar c)).reverse.dropWhile (fun c => wsChar c)).reverse

/-- JS `String.prototype.trim`. -/
def jsTrim (s : String) : String := String.mk (jsTrimL s.toList)

/-! ## A tiny regular-expression engine

Pattern ASTs cover exactly the constructs used by the source's patterns:
literal characters, `.` (any character except line terminators), `[^"]`,
`\s`, concatenation, alternation and Kleene star.  Matching is by
Brzozowski derivatives; `reTest` is JS `RegExp.prototype.test` (match
anywhere).  Case-insensitive (`/i`) matching is modelled by lowercasing
both the subject text and the pattern literals. -/

inductive RE where
  | fail
  | eps
  | lit (c : Char)
  | any
  | nq
  | ws
  | seq (a b : RE)
  | alt (a b : RE)
  | star (a : RE)

/-- Does the pattern accept the empty string? -/
def RE.nullable : RE → Bool
  | .fail => false
  | .eps => true
  | .lit _ => false
  | .any => false
  | .nq => false
  | .ws => false
  | .seq a b => a.nullable && b.nullable
  | .alt a b => a.nullable || b.nullable
  | .star _ => true

/-- Smart concatenation collapsing the failing pattern. -/
def mkSeq : RE → RE → RE
  | .fail, _ => .fail
  | _, .fail => .fail
  | .eps, b => b
  | a, .eps => a
  | a, b => .seq a b

/-- Smart alternation collapsing the failing pattern. -/
def mkAlt : RE → RE → RE
  | .fail, b => b
  | a, .fail => a
  | a, b => .alt a b

/-- Brzozowski derivative with respect to one character. -/
def RE.deriv : RE → Char → RE
  | .fail, _ => .fail
  | .eps, _ => .fail
  | .lit c, x => if x == c then .eps else .fail
  | .any, x =>
    if x == '\n' || x == '\r' || x == Char.ofNat 0x2028 || x == Char.ofNat 0x2029
    then .fail else .eps
  | .nq, x => if x == '"' then .fail else .eps
  | .ws, x => if wsChar x then .eps else .fail
  | .seq a b, x =>
    if a.nullable then mkAlt (mkSeq (a.deriv x) b) (b.deriv x)
    else mkSeq (a.deriv x) b
  | .alt a b, x => mkAlt (a.deriv x) (b.deriv x)
  | .star a, x => mkSeq (a.deriv x) (.star a)

/-- Is the pattern the (collapsed) failing pattern? -/
def RE.isFail : RE → Bool
  | .fail => true
  | _ => false

/-- Does some prefix of the text match the pattern? -/
def matchPref : RE → List Char → Bool
  | r, [] => r.nullable
  | r, c :: cs =>
    r.nullable || (let d := r.deriv c; !d.isFail && matchPref d cs)

/-- JS `pattern.test(text)`: the pattern matches somewhere in the text. -/
def reTest (r : RE) : List Char → Bool
  | [] => r.nullable
  | c :: cs => matchPref r (c :: cs) || reTest r cs

/-- Concatenation of a literal string, character by character. -/
def reLit (s : String) : RE := s.toList.foldr (fun c r => RE.seq (RE.lit c) r) RE.eps

/-- Concatenation of a list of patterns. -/
def reCat (l : List RE) : RE := l.foldr RE.seq RE.eps

/-- `r?`. -/
def reOpt (r : RE) : RE := RE.alt RE.eps r

/-- `r{0,n}`. -/
def reRep : Nat → RE → RE
  | 0, _ => RE.eps
  | n + 1, r => reOpt (RE.seq r (reRep n r))

/-! ## Response validators (src/unnamed/part_003, `isBlocked`,
`isPaywalled`, `isGoogleErrorPage`) -/

/-- The `blockedPatterns` table of `isBlocked`, transcribed pattern by
pattern (the source lists `please verify you are` twice). -/
def blockedPatterns : List RE := [
  reCat [reLit "sorry", reOpt (RE.lit ','), RE.star RE.ws, reLit "you have been blocked"],
  reLit "you are unable to access",
  reLit "cloudflare ray id",
  reLit "enable cookies",
  reLit "checking your browser",
  reLit "please wait while we check",
  reLit "security check",
  reLit "just a moment",
  reLit "one more step",
  reLit "completing the captcha",
  reLit "access denied",
  reLit "403 forbidden",
  reLit "robot check",
  reLit "captcha",
  reLit "are you a robot",
  reCat [reLit "prove you", RE.lit apoC, reLit "re human"],
  reLit "please verify you are",
  reLit "please verify you are",
  reLit "opening this page",
  reLit "<title>google news</title>"]

/-- The `paywallPatterns` table of `isPaywalled`. -/
def paywallPatterns : List RE := [
  reCat [reLit "class=\"", RE.star RE.nq, reLit "paywall", RE.star RE.nq, RE.lit '"'],
  reCat [reLit "id=\"", RE.star RE.nq, reLit "paywall", RE.star RE.nq, RE.lit '"'],
  reCat [reLit "subscribe", reRep 20 RE.any, reLit "to", reRep 20 RE.any, reLit "continue"],
  reCat [reLit "sign", reRep 10 RE.any, reLit "up", reRep 20 RE.any, reLit "to",
    reRep 20 RE.any, reLit "read"],
  reCat [reLit "premium", reRep 20 RE.any, reLit "content"],
  reCat [reLit "member", reOpt (RE.lit 's'), reRep 10 RE.any, reLit "only"],
  reCat [reLit "login", reRep 20 RE.any, reLit "to", reRep 20 RE.any, reLit "view"],
  reLit "data-paywall",
  reLit "this article is for subscribers",
  reCat [reLit "you", RE.lit apoC, reLit "ve reached your limit"],
  reCat [reLit "create", reRep 10 RE.any, reLit "an", reRep 10 RE.any, reLit "account"],
  reLit "start your free trial"]

/-- The `errorPatterns` table of `isGoogleErrorPage`. -/
def googleErrorPatterns : List RE := [
  reCat [reLit "if you", RE.lit apoC, reLit "re having trouble accessing google search"],
  reCat [reLit "click here", RE.star RE.any, reLit "send feedback"],
  reLit "<title>google search</title>",
  reLit "emsg=sg_rel"]

/-- `isBlocked(html)`: some blocked pattern matches the lowercased first
5000 units of the document. -/
def isBlocked (html : String) : Bool :=
  let text := toLowerL (html.toList.take 5000)
  blockedPatterns.any (fun p => reTest p text)

/-- `isPaywalled(html)`: some paywall pattern matches (case-insensitively)
the first 10000 units of the document. -/
def isPaywalled (html : String) : Bool :=
  let text := toLowerL (html.toList.take 10000)
  paywallPatterns.any (fun p => reTest p text)

/-- `isGoogleErrorPage(html)`: some Google-error pattern matches
(case-insensitively) the first 3000 units of the document. -/
def isGoogleErrorPage (html : String) : Bool :=
  let text := toLowerL (html.toList.take 3000)
  googleErrorPatterns.any (fun p => reTest p text)

/-! ## Strategy results and the race validation predicates
(src/unnamed/part_003) -/

/-- The adapter result record (`FetchResult` of googlebot.ts and
`JinaResult` of jina.ts share this shape; a field is `none` when the JS
object lacks the key, and JS key-presence tests such as
`"markdown" in result` become `Option.isSome`). -/
structure StrategyResult where
  success : Bool
  html : Option String := none
  markdown : Option String := none
  title : Option String := none
  strategy : String
  error : Option String := none
deriving DecidableEq, Repr

/-- The acceptance test a racer applies inside `fetchParallel`
(part_003 lines 252-272): markdown of length over 100 is accepted
outright; otherwise the result must be successful, pass the three
validators, and carry HTML of at least 10000 units. -/
def validPrimary (r : StrategyResult) : Bool :=
  match r.markdown with
  | some m =>
    if !m.isEmpty && m.length > 100 then true
    else validPrimaryHtml r
  | none => validPrimaryHtml r
where
  /-- The HTML arm: `html` defaults to the empty string when absent. -/
  validPrimaryHtml (r : StrategyResult) : Bool :=
    let html := r.html.getD ""
    r.success && !isBlocked html && !isPaywalled html && !isGoogleErrorPage html &&
      decide (html.length ≥ 10000)

/-- The acceptance test inside `fetchParallelFallback` (part_003 lines
289-307): markdown of length over 100, or present non-empty HTML of
length over 1000 from a successful result passing the three validators. -/
def validFallback (r : StrategyResult) : Bool :=
  (match r.markdown with
   | some m => !m.isEmpty && m.length > 100
   | none => false) ||
  (match r.html with
   | some h =>
     !h.isEmpty && h.length > 1000 &&
       (r.success && !isBlocked h && !isPaywalled h && !isGoogleErrorPage h)
   | none => false)

/-- The regex replace `^Title:[\s\S]*?Markdown Content:\n+` applied to
Jina/Exa markdown inside `executeStrategy`: when the text starts with
`Title:` (case-insensitively) and some later occurrence of
`Markdown Content:` is followed by at least one newline, everything
through that occurrence and the maximal newline run after it is removed
(the lazy `[\s\S]*?` with backtracking selects the earliest such
occurrence).  Otherwise the text is unchanged. -/
def stripReaderHeader (md : String) : String :=
  if listStarts "title:".toList (toLowerL md.toList) then
    match stripAfterMarker md.toList with
    | some rest => String.mk rest
    | none => md
  else md
where
  /-- Scan for the earliest `Markdown Content:` followed by a newline;
  return what follows the newline run. -/
  stripAfterMarker : List Char → Option (List Char)
    | [] => none
    | c :: cs =>
      if listStarts "markdown content:".toList (toLowerL (c :: cs)) then
        let after := (c :: cs).drop "markdown content:".length
        match after with
        | '\n' :: _ => some (after.dropWhile (fun x => x == '\n'))
        | _ => stripAfterMarker cs
      else stripAfterMarker cs

/-- Post-processing of a Jina or Exa result inside `executeStrategy`:
on success with truthy markdown, the reader preamble is stripped. -/
def postProcessReader (r : StrategyResult) : StrategyResult :=
  match r.markdown with
  | some m => if r.success && !m.isEmpty then { r with markdown := some (stripReaderHeader m) } else r
  | none => r

/-- `MultiStrategyResult` (part_003 lines 33-42).  The `elapsed`
wall-clock field is not modelled (time does not influence any claim). -/
structure MultiStrategyResult where
  success : Bool
  html : Option String := none
  markdown : Option String := none
  title : Option String := none
  strategy : String
  error : Option String := none
  attempts : List (String × Option String) := []
deriving DecidableEq, Repr

/-- `PARALLEL_STRATEGIES` (part_003 line 45). -/
def PARALLEL_STRATEGIES : List String := ["direct", "googlebot", "facebookbot", "bingbot"]

/-- `FALLBACK_STRATEGIES` (part_003 line 48). -/
def FALLBACK_STRATEGIES : List String := ["12ft", "archive", "jina", "exa"]

/-- `createResult` (part_003 lines 411-437): package an adapter result,
keeping markdown (with title) when the `markdown` key is present, HTML
otherwise. -/
def createResult (r : StrategyResult) (strategy : String)
    (attempts : List (String × Option String)) : MultiStrategyResult :=
  if r.markdown.isSome then
    { success := r.success, markdown := r.markdown, title := r.title,
      strategy := strategy, attempts := attempts, error := r.error }
  else
    { success := r.success, html := r.html,
      strategy := strategy, attempts := attempts, error := r.error }

/-- Rendering of one attempt in the aggregated failure message
(JS template `${a.strategy}: ${a.error}`; an absent error prints as
`undefined`). -/
def attemptLine (a : String × Option String) : String :=
  a.1 ++ ": " ++ (match a.2 with | some e => e | none => "undefined")

/-- The aggregated failure outcome (part_003 lines 399-405). -/
def allFailedResult (attempts : List (String × Option String)) : MultiStrategyResult :=
  { success := false,
    error := some ("All strategies failed. Attempts: " ++
      String.intercalate "; " (attempts.map attemptLine)),
    strategy := "direct", attempts := attempts }

/-- The environment of the orchestrator: each adapter is a function from
the URL to its result record (the adapters are separate asynchronous
functions; their own embedding is below), the Google-News decoder maps a
URL to the decoded URL or a thrown message, and the two schedules give
the completion order of the promises in each race. -/
structure OrchEnv where
  direct : String → StrategyResult
  googlebot : String → StrategyResult
  facebookbot : String → StrategyResult
  bingbot : String → StrategyResult
  archive : String → StrategyResult
  twelveft : String → StrategyResult
  jina : String → StrategyResult
  exa : String → StrategyResult
  gnDecode : String → Except String String
  schedulePrimary : String → List String
  scheduleFallback : String → List String

/-- The options record of `fetchWithStrategies`. -/
structure FetchOpts where
  bypass : Bool
  strategy : Option String := none

/-- Finishing step of the fallback race (part_003 lines 390-405): a
successful winner is packaged, anything else yields the aggregated
failure. -/
def finishFallback (attempts : List (String × Option String))
    (fb : Option StrategyResult) : MultiStrategyResult :=
  match fb with
  | some r => if r.success then createResult r r.strategy attempts else allFailedResult attempts
  | none => allFailedResult attempts

/-- An orchestrator recursion handle: what the `googlenews` strategy
calls on the decoded URL (`fetchWithStrategies` with `bypass=true` and
no explicit strategy). -/
abbrev OrchRec := String → Option MultiStrategyResult

/-- `fetchWithGoogleNews` (src/unnamed/part_002) as a functional of the
orchestrator recursion: decode the URL and recursively invoke the
orchestrator on the decoded URL; every thrown error is caught and mapped
to a failure record.  `none` propagates divergence of the recursion. -/
def fetchWithGoogleNewsGo (orch : OrchRec) (env : OrchEnv) (url : String) :
    Option StrategyResult :=
  match env.gnDecode url with
  | .error e =>
      some { success := false,
             error := some ("Google News Decode Failed: " ++ e),
             strategy := "googlenews" }
  | .ok decodedUrl =>
    if decodedUrl.isEmpty || !strStarts decodedUrl "http" then
      some { success := false,
             error := some ("Google News Decode Failed: Decoded URL is invalid: " ++ decodedUrl),
             strategy := "googlenews" }
    else
      match orch decodedUrl with
      | none => none
      | some result =>
        if result.success then
          some { success := true, html := result.html, markdown := result.markdown,
                 title := result.title, strategy := "googlenews-" ++ result.strategy,
                 error := result.error }
        else
          some { success := false,
                 error := some ((result.error).getD "Failed to fetch decoded URL"),
                 strategy := "googlenews" }

/-- `executeStrategy` (part_003 lines 209-246): dispatch one strategy
name to its adapter; Jina and Exa output is post-processed; the
`googlenews` case recurses through `orch`. -/
def executeStrategyGo (orch : OrchRec) (env : OrchEnv) (url : String) (s : String) :
    Option StrategyResult :=
  if s == "direct" then some (env.direct url)
  else if s == "googlebot" then some (env.googlebot url)
  else if s == "facebookbot" then some (env.facebookbot url)
  else if s == "bingbot" then some (env.bingbot url)
  else if s == "archive" then some (env.archive url)
  else if s == "12ft" then some (env.twelveft url)
  else if s == "jina" then some (postProcessReader (env.jina url))
  else if s == "exa" then some (postProcessReader (env.exa url))
  else if s == "googlenews" then fetchWithGoogleNewsGo orch env url
  else some { success := false, error := some "Unknown strategy", strategy := "direct" }

/-- `fetchParallel` (part_003 lines 251-281): run every strategy of the
list and return the first, in completion order, whose result passes
`validPrimary`; `some none` when all are rejected. -/
def fetchParallelGo (orch : OrchRec) (env : OrchEnv) (url : String) (arrival : List String) :
    Option (Option StrategyResult) :=
  match arrival.mapM (executeStrategyGo orch env url) with
  | none => none
  | some rs => some (rs.find? validPrimary)

/-- `fetchParallelFallback` (part_003 lines 288-314): the same race with
the fallback acceptance test. -/
def fetchParallelFallbackGo (orch : OrchRec) (env : OrchEnv) (url : String)
    (arrival : List String) : Option (Option StrategyResult) :=
  match arrival.mapM (executeStrategyGo orch env url) with
  | none => none
  | some rs => some (rs.find? validFallback)

/-- The continuation of the race tier on the primary race outcome
(part_003 lines 383-395): a successful winner is packaged; otherwise the
fallback race runs and `finishFallback` settles the request. -/
def raceStepGo (orch : OrchRec) (env : OrchEnv) (url : String)
    (attempts : List (String × Option String)) :
    Option StrategyResult → Option MultiStrategyResult
  | some r =>
    if r.success then some (createResult r r.strategy attempts)
    else (fetchParallelFallbackGo orch env url (env.scheduleFallback url)).map
      (finishFallback attempts)
  | none => (fetchParallelFallbackGo orch env url (env.scheduleFallback url)).map
      (finishFallback attempts)

/-- The race tiers of `fetchWithStrategies` (lines 366-405): the
no-bypass direct fetch, the primary bot race (skipped for Google News
URLs), and the fallback race. -/
def fetchRacesGo (orch : OrchRec) (env : OrchEnv) (url : String) (bypass : Bool)
    (attempts : List (String × Option String)) : Option MultiStrategyResult :=
  if !bypass then
    let r := env.direct url
    some (createResult r "direct" (attempts ++ [("direct", r.error)]))
  else
    if !strHas url "news.google.com" then
      match fetchParallelGo orch env url (env.schedulePrimary url) with
      | none => none
      | some parallelResult => raceStepGo orch env url attempts parallelResult
    else raceStepGo orch env url attempts none

/-- The body of `fetchWithStrategies` after the explicit-strategy branch:
the Google-News routing (lines 337-362) followed by the tier logic. -/
def fetchTiersGo (orch : OrchRec) (env : OrchEnv) (url : String) (bypass : Bool) :
    Option MultiStrategyResult :=
  if strHas url "news.google.com" || strHas url "/rss/articles/" then
    match executeStrategyGo orch env url "archive" with
    | none => none
    | some archiveResult =>
      let attempts := [("archive", archiveResult.error)]
      if archiveResult.success &&
          !(archiveResult.html.getD "").isEmpty &&
          decide ((archiveResult.html.getD "").length > 10000) then
        some (createResult archiveResult "archive" attempts)
      else
        match executeStrategyGo orch env url "googlenews" with
        | none => none
        | some gnr =>
          let attempts := attempts ++ [("googlenews", gnr.error)]
          if gnr.success then some (createResult gnr "googlenews" attempts)
          else fetchRacesGo orch env url true attempts
  else fetchRacesGo orch env url bypass []

/-- `fetchWithStrategies` (part_003 lines 319-406) as a functional of
the orchestrator recursion. -/
def fetchWithStrategiesGo (orch : OrchRec) (env : OrchEnv) (url : String) (opts : FetchOpts) :
    Option MultiStrategyResult :=
  match opts.strategy with
  | some s =>
    if s != "" && s != "custom" && s != "auto" then
      match executeStrategyGo orch env url s with
      | none => none
      | some r => some (createResult r s [(s, r.error)])
    else fetchTiersGo orch env url opts.bypass
  | none => fetchTiersGo orch env url opts.bypass

/-- `fetchWithStrategies`, step-indexed: the recursion through the
`googlenews` strategy is tied by structural recursion on a fuel bound;
`none` means the computation did not finish within the fuel (the source
has no other bound on this recursion). -/
def fetchWithStrategiesF : Nat → OrchEnv → String → FetchOpts → Option MultiStrategyResult
  | 0, _, _, _ => none
  | fuel + 1, env, url, opts =>
    fetchWithStrategiesGo
      (fun decodedUrl =>
        fetchWithStrategiesF fuel env decodedUrl { bypass := true, strategy := none })
      env url opts

/-- The recursion handle at a given fuel. -/
def gnOrch (fuel : Nat) (env : OrchEnv) : OrchRec :=
  fun decodedUrl => fetchWithStrategiesF fuel env decodedUrl { bypass := true, strategy := none }

/-- `executeStrategy` at a given fuel. -/
def executeStrategyF (fuel : Nat) (env : OrchEnv) (url s : String) : Option StrategyResult :=
  executeStrategyGo (gnOrch fuel env) env url s

/-- `fetchWithGoogleNews` at a given fuel. -/
def fetchWithGoogleNewsF (fuel : Nat) (env : OrchEnv) (url : String) : Option StrategyResult :=
  fetchWithGoogleNewsGo (gnOrch fuel env) env url

/-- `fetchParallel` at a given fuel. -/
def fetchParallelF (fuel : Nat) (env : OrchEnv) (url : String) (arrival : List String) :
    Option (Option StrategyResult) :=
  fetchParallelGo (gnOrch fuel env) env url arrival

/-- The unfolding of `fetchWithStrategies` at positive fuel. -/
theorem fetchWithStrategiesF_succ (fuel : Nat) (env : OrchEnv) (url : String)
    (opts : FetchOpts) :
    fetchWithStrategiesF (fuel + 1) env url opts =
      fetchWithStrategiesGo (gnOrch fuel env) env url opts := rfl

/-! ## Charset decoding (src/src/utils.ts, `decodeResponse`)

The strict UTF-8 decoder (`new TextDecoder("utf-8", {fatal:true})`) is
implemented below following the standard UTF-8 grammar; the GBK decoder
(`new TextDecoder("gbk")`, a platform table not part of the repository)
is a parameter of every function that uses it. -/

/-- Is `b` a UTF-8 continuation byte? -/
def isCont (b : Nat) : Bool := 0x80 ≤ b && b ≤ 0xBF

/-- The byte at an offset, with an out-of-range marker that fails every
range test (a truncated sequence is malformed). -/
def byteAt (l : List Nat) (i : Nat) : Nat := (l.get? i).getD 0x100

/-- Decode one scalar value from the head of a byte sequence, following
the standard UTF-8 grammar (overlongs, surrogates and values beyond
U+10FFFF are malformed): the character and the remaining bytes, or
`none` when the head is malformed. -/
def utf8Step : List Nat → Option (Char × List Nat)
  | [] => none
  | b :: rest =>
    if b < 0x80 then some (Char.ofNat b, rest)
    else if 0xC2 ≤ b ∧ b ≤ 0xDF then
      let c1 := byteAt rest 0
      if isCont c1 then some (Char.ofNat ((b - 0xC0) * 64 + (c1 - 0x80)), rest.drop 1)
      else none
    else if 0xE0 ≤ b ∧ b ≤ 0xEF then
      let c1 := byteAt rest 0
      let c2 := byteAt rest 1
      let lo1 := if b = 0xE0 then 0xA0 else 0x80
      let hi1 := if b = 0xED then 0x9F else 0xBF
      if (lo1 ≤ c1 ∧ c1 ≤ hi1) ∧ isCont c2 then
        some (Char.ofNat ((b - 0xE0) * 4096 + (c1 - 0x80) * 64 + (c2 - 0x80)), rest.drop 2)
      else none
    else if 0xF0 ≤ b ∧ b ≤ 0xF4 then
      let c1 := byteAt rest 0
      let c2 := byteAt rest 1
      let c3 := byteAt rest 2
      let lo1 := if b = 0xF0 then 0x90 else 0x80
      let hi1 := if b = 0xF4 then 0x8F else 0xBF
      if (lo1 ≤ c1 ∧ c1 ≤ hi1) ∧ isCont c2 ∧ isCont c3 then
        some (Char.ofNat ((b - 0xF0) * 262144 + (c1 - 0x80) * 4096 +
          (c2 - 0x80) * 64 + (c3 - 0x80)), rest.drop 3)
      else none
    else none

/-- Strict decoding driver: each step consumes at least one byte, so the
byte count is sufficient fuel and the `none` of the middle arm is never
reached from `utf8Decode`. -/
def utf8DecodeGo : Nat → List Nat → Option (List Char)
  | _, [] => some []
  | 0, _ :: _ => none
  | fuel + 1, b :: rest =>
    match utf8Step (b :: rest) with
    | none => none
    | some (c, rem) => (utf8DecodeGo fuel rem).map (fun cs => c :: cs)

/-- Strict (fatal) UTF-8 decoding of a byte sequence: `none` on any
malformed, overlong, surrogate or out-of-range sequence. -/
def utf8Decode (l : List Nat) : Option (List Char) := utf8DecodeGo l.length l

/-- `decodeResponse` (utils.ts lines 86-112).  `gbk` is the platform GBK
decoder; `contentType` is `response.headers.get("content-type") || ""`;
`bytes` is the response body.  The source first tests whether the
lowercased Content-Type header contains the substring `gb` anywhere,
then attempts strict UTF-8 with a meta-charset re-check on the first
1000 units, and falls back to GBK when strict UTF-8 fails. -/
def decodeResponse (gbk : List Nat → String) (contentType : String) (bytes : List Nat) : String :=
  if listHas "gb".toList (toLowerL contentType.toList) then gbk bytes
  else
    match utf8Decode bytes with
    | some cs =>
      let headL := toLowerL (cs.take 1000)
      if listHas "charset=gb".toList headL ||
          listHas "charset=\"gb".toList headL ||
          listHas ("charset=" ++ apoS ++ "gb").toList headL then
        gbk bytes
      else String.mk cs
    | none => gbk bytes

/-- Modelled from the claim wording for comparison with `decodeResponse`:
step 1 keys on the charset *label* of the Content-Type header starting
with `gb` (rather than the whole header containing `gb`); steps 2 and 3
are as in the source. -/
def decodeResponseSpec (gbk : List Nat → String) (contentType : String) (bytes : List Nat) :
    String :=
  if charsetLabelStartsGb contentType then gbk bytes
  else
    match utf8Decode bytes with
    | some cs =>
      let headL := toLowerL (cs.take 1000)
      if listHas "charset=gb".toList headL ||
          listHas "charset=\"gb".toList headL ||
          listHas ("charset=" ++ apoS ++ "gb").toList headL then
        gbk bytes
      else String.mk cs
    | none => gbk bytes
where
  /-- Does the `charset=` parameter value of the header start with `gb`
  (after an optional opening quote)? -/
  charsetLabelStartsGb (contentType : String) : Bool :=
    charsetScan (toLowerL contentType.toList)
  /-- Find `charset=` and test the value following it. -/
  charsetScan : List Char → Bool
    | [] => false
    | c :: cs =>
      if listStarts "charset=".toList (c :: cs) then
        let v := (c :: cs).drop "charset=".length
        let v := v.dropWhile (fun x => x == '"' || x == apoC)
        listStarts "gb".toList v
      else charsetScan cs

/-! ## Transport-level adapter embeddings

A `HttpResp` is what the adapter observes of a `fetch` `Response`; an
adapter environment is the outcome of its (single) `fetch` call: either
a thrown transport error or a response whose body reads (`arrayBuffer`
or `text`) may themselves throw.  Each `...E` function is the adapter
body before its outer `try`/`catch`; the adapter proper catches every
thrown message into a failure record exactly as the source does. -/

structure HttpResp where
  ok : Bool
  status : Nat
  statusText : String
  contentType : Option String := none
  bytes : Except String (List Nat) := .ok []
  text : Except String String := .ok ""

/-- The outcome of one `fetch` call. -/
def FetchOutcome := Except String HttpResp

/-- Failure record shared by the HTML adapters. -/
def failWith (strategy msg : String) : StrategyResult :=
  { success := false, error := some msg, strategy := strategy }

/-- `fetchDirect` (part_003 lines 75-135) before its `catch`. -/
def fetchDirectE (gbk : List Nat → String) (outcome : FetchOutcome) :
    Except String StrategyResult :=
  match outcome with
  | .error e => .error e
  | .ok response =>
    if !response.ok then .ok (failWith "direct" ("HTTP " ++ toString response.status))
    else
      if !strHas (response.contentType.getD "") "text/html" then
        .ok (failWith "direct" ("Invalid content type: " ++ response.contentType.getD ""))
      else
        match response.bytes with
        | .error e => .error e
        | .ok buf =>
          if isBlocked (decodeResponse gbk (response.contentType.getD "") buf) then
            .ok (failWith "direct" "Blocked by Cloudflare or anti-bot")
          else if isPaywalled (decodeResponse gbk (response.contentType.getD "") buf) then
            .ok (failWith "direct" "Paywall detected")
          else .ok { success := true,
                     html := some (decodeResponse gbk (response.contentType.getD "") buf),
                     strategy := "direct" }

/-- `fetchDirect`: every thrown message is caught into a failure. -/
def fetchDirect (gbk : List Nat → String) (outcome : FetchOutcome) : StrategyResult :=
  match fetchDirectE gbk outcome with
  | .ok r => r
  | .error e => failWith "direct" e

/-- Shared body of the googlebot / facebookbot / bingbot adapters
(googlebot.ts lines 41-88 and the files that repeat its structure):
only the impersonation headers differ between the three, and headers do
not affect the embedded control flow. -/
def fetchBotE (strategy : String) (gbk : List Nat → String) (outcome : FetchOutcome) :
    Except String StrategyResult :=
  match outcome with
  | .error e => .error e
  | .ok response =>
    if !response.ok then
      .ok (failWith strategy
        ("HTTP " ++ toString response.status ++ ": " ++ response.statusText))
    else
      if !strHas (response.contentType.getD "") "text/html" then
        .ok (failWith strategy ("Invalid content type: " ++ response.contentType.getD ""))
      else
        match response.bytes with
        | .error e => .error e
        | .ok buf =>
          .ok { success := true,
                html := some (decodeResponse gbk (response.contentType.getD "") buf),
                strategy := strategy }

/-- `fetchWithGooglebot` (googlebot.ts). -/
def fetchWithGooglebot (gbk : List Nat → String) (outcome : FetchOutcome) : StrategyResult :=
  match fetchBotE "googlebot" gbk outcome with
  | .ok r => r
  | .error e => failWith "googlebot" e

/-- `fetchWithFacebookbot` (facebookbot.ts). -/
def fetchWithFacebookbot (gbk : List Nat → String) (outcome : FetchOutcome) : StrategyResult :=
  match fetchBotE "facebookbot" gbk outcome with
  | .ok r => r
  | .error e => failWith "facebookbot" e

/-- `fetchWithBingbot` (bingbot.ts). -/
def fetchWithBingbot (gbk : List Nat → String) (outcome : FetchOutcome) : StrategyResult :=
  match fetchBotE "bingbot" gbk outcome with
  | .ok r => r
  | .error e => failWith "bingbot" e

/-- `fetchWith12ft` (twelveft.ts lines 10-63) before its `catch`; the
body is read with `response.text()` (no charset sniffing). -/
def fetchWith12ftE (outcome : FetchOutcome) : Except String StrategyResult :=
  match outcome with
  | .error e => .error e
  | .ok response =>
    if !response.ok then
      .ok (failWith "12ft"
        ("12ft.io error: " ++ toString response.status ++ " " ++ response.statusText))
    else
      if !strHas (response.contentType.getD "") "text/html" then
        .ok (failWith "12ft" ("Invalid content type from 12ft: " ++ response.contentType.getD ""))
      else
        match response.text with
        | .error e => .error e
        | .ok html =>
          if strHas html "Rate limit exceeded" || strHas html "blocked" then
            .ok (failWith "12ft" "12ft.io rate limited or blocked")
          else .ok { success := true, html := some html, strategy := "12ft" }

/-- `fetchWith12ft`. -/
def fetchWith12ft (outcome : FetchOutcome) : StrategyResult :=
  match fetchWith12ftE outcome with
  | .ok r => r
  | .error e => failWith "12ft" e

/-- Title extraction of the Jina adapter: the multiline regex
`/^#\s+(.+)$/m` — the first line consisting of `#`, at least one
whitespace character, and at least one further character; the capture is
what a backtracking engine leaves to `(.+)`, trimmed. -/
def jinaTitle (md : String) : Option String :=
  firstLineTitle (md.toList.splitOn '\n')
where
  /-- Match one line against `^#\s+(.+)$`. -/
  lineTitle (l : List Char) : Option (List Char) :=
    match l with
    | '#' :: t =>
      match t with
      | c :: _ =>
        if wsChar c then
          let body := t.dropWhile (fun x => wsChar x)
          if body ≠ [] then some (jsTrimL body)
          else if t.length ≥ 2 then some []
          else none
        else none
      | [] => none
    | _ => none
  /-- First matching line wins. -/
  firstLineTitle : List (List Char) → Option String
    | [] => none
    | l :: ls =>
      match lineTitle l with
      | some t => some (String.mk t)
      | none => firstLineTitle ls

/-- `fetchWithJina` (jina.ts lines 17-63) before its `catch`. -/
def fetchWithJinaE (outcome : FetchOutcome) : Except String StrategyResult :=
  match outcome with
  | .error e => .error e
  | .ok response =>
    if !response.ok then
      .ok (failWith "jina"
        ("Jina API error: " ++ toString response.status ++ " " ++ response.statusText))
    else
      match response.text with
      | .error e => .error e
      | .ok markdown =>
        if markdown.isEmpty || markdown.length < 50 then
          .ok (failWith "jina" "Jina returned empty or too short content")
        else
          .ok { success := true, markdown := some markdown, title := jinaTitle markdown,
                strategy := "jina" }

/-- `fetchWithJina`. -/
def fetchWithJina (outcome : FetchOutcome) : StrategyResult :=
  match fetchWithJinaE outcome with
  | .ok r => r
  | .error e => failWith "jina" e

/-- JS falsiness of a nullable string: absent or empty. -/
def jsFalsyOpt (a : Option String) : Bool :=
  match a with
  | none => true
  | some s => s.isEmpty

/-- JS `a || b` on two nullable strings: the value of `a` when truthy,
otherwise the value of `b` as it stands. -/
def jsOrOpt (a b : Option String) : Option String :=
  match a with
  | some s => if s.isEmpty then b else some s
  | none => b

/-- JS template interpolation of a possibly-undefined string. -/
def jsShowOpt (a : Option String) : String :=
  match a with
  | some s => s
  | none => "undefined"

/-- `archived_snapshots?.closest` of the availability API's JSON
(archive.ts lines 11-19). -/
structure ArchiveSnapshot where
  url : String
  timestamp : String
  status : String

/-- The environment of one `fetchFromArchive` call: the availability
check, its parsed JSON's closest snapshot, the fallback
`web.archive.org/web/` fetch and the snapshot fetch, each an `Except`
whose error is a thrown rejection. -/
structure ArchiveEnv where
  check : Except String HttpResp
  closest : Except String (Option ArchiveSnapshot)
  direct : Except String HttpResp
  snap : String → Except String HttpResp

/-- The direct `web.archive.org` fallback of `fetchFromArchive`
(archive.ts lines 39-61). -/
def archiveDirectE (env : ArchiveEnv) : Except String StrategyResult :=
  match env.direct with
  | .error e => .error e
  | .ok directResponse =>
    if !directResponse.ok then .ok (failWith "archive" "No archive snapshot available")
    else
      match directResponse.text with
      | .error e => .error e
      | .ok html => .ok { success := true, html := some html, strategy := "archive" }

/-- `fetchFromArchive` (archive.ts lines 21-93) before its `catch`. -/
def fetchFromArchiveE (env : ArchiveEnv) : Except String StrategyResult :=
  match env.check with
  | .error e => .error e
  | .ok checkResponse =>
    if !checkResponse.ok then
      .ok (failWith "archive" ("Archive API error: " ++ toString checkResponse.status))
    else
      match env.closest with
      | .error e => .error e
      | .ok none => archiveDirectE env
      | .ok (some snapshot) =>
        if !(snapshot.status == "200") then archiveDirectE env
        else
          match env.snap snapshot.url with
          | .error e => .error e
          | .ok response =>
            if !response.ok then
              .ok (failWith "archive"
                ("Failed to fetch archive: " ++ toString response.status))
            else
              match response.text with
              | .error e => .error e
              | .ok html => .ok { success := true, html := some html, strategy := "archive" }

/-- `fetchFromArchive`: every thrown message is caught into a failure. -/
def fetchFromArchive (env : ArchiveEnv) : StrategyResult :=
  match fetchFromArchiveE env with
  | .ok r => r
  | .error e => failWith "archive" e

/-- One element of the `results` array Exa returns (the fields exa.ts
reads of it; `errorTag` is `error?.tag`).  The embedding takes the
array's elements to be objects. -/
structure ExaFirstResult where
  status : Option String := none
  id : Option String := none
  text : Option String := none
  content : Option String := none
  title : Option String := none
  errorTag : Option String := none

/-- The parsed JSON of the MCP text entry, as the fields exa.ts reads:
`results` is `some` exactly when present and an array. -/
structure ExaParsedObj where
  results : Option (List ExaFirstResult) := none
  text : Option String := none
  content : Option String := none
  title : Option String := none

/-- The body of `fetchWithExa` (exa.ts lines 126-196) from the MCP text
entry on: `textEntry` is the text of the `type: "text"` content entry
(`none` when there is no content array or no such entry), `parseJson`
is `JSON.parse` (`none` when it throws). -/
def fetchWithExaCore (parseJson : String → Option ExaParsedObj)
    (textEntry : Option String) : StrategyResult :=
  match textEntry with
  | none => failWith "exa" "No content returned from Exa"
  | some t =>
    if t.isEmpty then failWith "exa" "No content returned from Exa"
    else
      match parseJson t with
      | some parsed =>
        match parsed.results with
        | some [] => failWith "exa" "Exa returned zero results"
        | some (firstResult :: _) =>
          if firstResult.status == some "error" || jsFalsyOpt firstResult.id then
            failWith "exa" ("Exa crawl failed: " ++
              jsShowOpt (jsOrOpt firstResult.errorTag firstResult.status))
          else
            { success := true, markdown := jsOrOpt firstResult.text firstResult.content,
              title := firstResult.title, strategy := "exa" }
        | none =>
          if !jsFalsyOpt (jsOrOpt parsed.text parsed.content) then
            { success := true, markdown := jsOrOpt parsed.text parsed.content,
              title := parsed.title, strategy := "exa" }
          else { success := true, markdown := some t, strategy := "exa" }
      | none =>
        if strHas t "CRAWL_LIVECRAWL_TIMEOUT" then
          failWith "exa" "Exa timeout in text response"
        else { success := true, markdown := some t, strategy := "exa" }

/-- `fetchWithExa` (exa.ts lines 106-207) before its `catch`: `init` is
whether the session was already present or `initMcpSession` succeeded;
the `Except` error is a rejection of the MCP tool call. -/
def fetchWithExaE (parseJson : String → Option ExaParsedObj) (init : Bool)
    (outcome : Except String (Option String)) : Except String StrategyResult :=
  if !init then .ok (failWith "exa" "Failed to initialize Exa MCP session")
  else
    match outcome with
    | .error e => .error e
    | .ok textEntry => .ok (fetchWithExaCore parseJson textEntry)

/-- `fetchWithExa`: every thrown message is caught into a failure. -/
def fetchWithExa (parseJson : String → Option ExaParsedObj) (init : Bool)
    (outcome : Except String (Option String)) : StrategyResult :=
  match fetchWithExaE parseJson init outcome with
  | .ok r => r
  | .error e => failWith "exa" e

/-! ## URL cache and the conversion façade

Two variants of `core/conversion.ts` exist in the repository: one
(src/unnamed/part_007) with an active URL cache, one
(src/src/core/conversion.ts) whose cache is disabled.  Both are
embedded, in the namespaces `Active` and `Disabled`.  A JS `Map` is an
insertion-ordered association list: `set` of an existing key updates in
place, of a new key appends; `keys().next().value` is the head key. -/

/-- `CacheEntry` (both conversion variants). -/
structure CacheEntry where
  content : String
  strategy : String
  contentType : String
  title : Option String := none
deriving DecidableEq, Repr

/-- A stored value of the cache `Map`: the entry plus its insertion
timestamp. -/
structure TimedEntry where
  data : CacheEntry
  timestamp : Nat
deriving DecidableEq, Repr

/-- The `urlCache` map of the active variant. -/
abbrev Cache := List (String × TimedEntry)

/-- JS `Map.prototype.get`. -/
def jsMapGet (m : Cache) (k : String) : Option TimedEntry :=
  match m.find? (fun p => p.1 == k) with
  | some p => some p.2
  | none => none

/-- JS `Map.prototype.set`: update in place, else append. -/
def jsMapSet (m : Cache) (k : String) (v : TimedEntry) : Cache :=
  if (m.find? (fun p => p.1 == k)).isSome then
    m.map (fun p => if p.1 == k then (k, v) else p)
  else m ++ [(k, v)]

/-- JS `Map.prototype.delete`. -/
def jsMapDelete (m : Cache) (k : String) : Cache :=
  m.filter (fun p => p.1 != k)

/-- `CACHE_TTL` (10 minutes in milliseconds). -/
def CACHE_TTL : Nat := 10 * 60 * 1000

/-- `ConversionOptions` (the `download` flag has no effect inside
`handleConversion` and is omitted). -/
structure ConversionOptions where
  bypass : Bool := false
  preserveImages : Bool := true
  strategy : Option String := none
  jsonFormat : Bool := false
  useCache : Bool := true

/-- `ConversionResult` (`elapsed` is wall-clock noise and not modelled). -/
structure ConversionResult where
  content : String
  strategy : String
  contentType : String
  fromCache : Bool
  title : Option String := none
deriving DecidableEq, Repr

/-- `FetchResponse` (utils.ts): the shape `handleConversion` sees of the
orchestrator outcome. -/
structure FetchResponse where
  html : Option String := none
  markdown : Option String := none
  strategy : String
  success : Bool
  error : Option String := none
  elapsed : Option Nat := none

/-- The JSON-LD extraction result (`JsonLdResult` of part_006). -/
structure JsonLdRes where
  title : String
  content : String
  author : Option String := none
  date : Option String := none

/-- The markdown-branch JSON envelope of `handleConversion`. -/
structure MdEnvelope where
  url : String
  title : String
  date : String
  content : String
  strategy : String
  elapsed : Option Nat := none

/-- The JSON-LD-branch JSON envelope of `handleConversion`. -/
structure LdEnvelope where
  url : String
  title : String
  date : String
  content : String
  strategy : String
  author : Option String := none

/-- The collaborators `handleConversion` calls: the orchestrator wrapper
`fetchHtmlWithStrategies`, the JSON-LD extractor, the readability +
turndown renderers, `JSON.stringify` on the two envelope shapes, and
`new Date().toISOString()`. -/
structure ConvEnv where
  fetchRes : String → FetchResponse
  extractFromJsonLd : String → Option JsonLdRes
  generateJsonData : String → String → String → Bool → String
  generateMarkdownText : String → Bool → String → String
  stringifyMd : MdEnvelope → String
  stringifyLd : LdEnvelope → String
  nowISO : String

namespace Active

/-- `getCached` (part_007 lines 27-38): a hit older than the TTL is
deleted and reported as a miss; the possibly-updated map is returned
alongside. -/
def getCached (now : Nat) (url : String) (cache : Cache) : Option CacheEntry × Cache :=
  match jsMapGet cache url with
  | none => (none, cache)
  | some entry =>
    if CACHE_TTL < now - entry.timestamp then (none, jsMapDelete cache url)
    else (some entry.data, cache)

/-- `setCache` (part_007 lines 40-47): at 100 or more entries the head
(FIFO-oldest) key is deleted first — unless that key is the empty
string, which is falsy in JS. -/
def setCache (now : Nat) (url : String) (data : CacheEntry) (cache : Cache) : Cache :=
  let cache :=
    if 100 ≤ cache.length then
      match cache.head? with
      | some (oldest, _) => if oldest.isEmpty then cache else jsMapDelete cache oldest
      | none => cache
    else cache
  jsMapSet cache url { data := data, timestamp := now }

/-- The markdown / JSON-LD / readability body shared by both conversion
variants (`handleConversion` lines 101-180 of either file): build the
`CacheEntry` for the fetched content, or the thrown message. -/
def buildResult (cenv : ConvEnv) (url : String) (options : ConversionOptions)
    (fetchResult : FetchResponse) : Except String CacheEntry :=
  match fetchResult.markdown with
  | some m =>
    if !m.isEmpty then
      if options.jsonFormat then
        .ok { content := cenv.stringifyMd
                { url := url, title := "Extracted Content", date := cenv.nowISO,
                  content := m, strategy := fetchResult.strategy,
                  elapsed := fetchResult.elapsed },
              strategy := fetchResult.strategy, contentType := "application/json" }
      else
        .ok { content := m, strategy := fetchResult.strategy,
              contentType := "text/plain; charset=utf-8" }
    else htmlBranch cenv url options fetchResult
  | none => htmlBranch cenv url options fetchResult
where
  /-- The `else if (fetchResult.html)` arm (JSON-LD, then readability +
  turndown), shared by both truthiness fall-throughs. -/
  htmlBranch (cenv : ConvEnv) (url : String) (options : ConversionOptions)
      (fetchResult : FetchResponse) : Except String CacheEntry :=
    match fetchResult.html with
    | some h =>
      if !h.isEmpty then
        match cenv.extractFromJsonLd h with
        | some jsonLd =>
          if 500 < jsonLd.content.length then
            let markdown := "# " ++ jsonLd.title ++ "\n\n" ++
              (match jsonLd.author with
               | some a => "*By " ++ a ++ "*\n\n"
               | none => "") ++ jsonLd.content
            if options.jsonFormat then
              .ok { content := cenv.stringifyLd
                      { url := url, title := jsonLd.title,
                        date := (jsonLd.date).getD cenv.nowISO,
                        content := markdown, strategy := fetchResult.strategy,
                        author := jsonLd.author },
                    strategy := fetchResult.strategy, contentType := "application/json",
                    title := some jsonLd.title }
            else
              .ok { content := markdown, strategy := fetchResult.strategy,
                    contentType := "text/plain; charset=utf-8", title := some jsonLd.title }
          else readabilityArm cenv url options fetchResult h
        | none => readabilityArm cenv url options fetchResult h
      else .error "No content received from fetch"
    | none => .error "No content received from fetch"
  /-- The readability + turndown fallback. -/
  readabilityArm (cenv : ConvEnv) (url : String) (options : ConversionOptions)
      (fetchResult : FetchResponse) (h : String) : Except String CacheEntry :=
    if options.jsonFormat then
      .ok { content := cenv.generateJsonData h url fetchResult.strategy options.preserveImages,
            strategy := fetchResult.strategy, contentType := "application/json" }
    else
      .ok { content := cenv.generateMarkdownText h options.preserveImages url,
            strategy := fetchResult.strategy, contentType := "text/plain; charset=utf-8" }

/-- `handleConversion` (part_007 lines 75-192), state-passing in the
cache; `now` is `Date.now()`; thrown errors surface as `Except.error`. -/
def handleConversion (cenv : ConvEnv) (now : Nat) (url : String)
    (options : ConversionOptions) (cache : Cache) :
    Except String (ConversionResult × Cache) :=
  match (if options.useCache then getCached now url cache else (none, cache)) with
  | (some c, cache) =>
    .ok ({ content := c.content, strategy := c.strategy, contentType := c.contentType,
           title := c.title, fromCache := true }, cache)
  | (none, cache) =>
    let fetchResult := cenv.fetchRes url
    if !fetchResult.success then .error ((fetchResult.error).getD "Failed to fetch content")
    else
      match buildResult cenv url options fetchResult with
      | .error e => .error e
      | .ok result =>
        .ok ({ content := result.content, strategy := result.strategy,
               contentType := result.contentType, title := result.title,
               fromCache := false },
             if options.useCache then setCache now url result cache else cache)

end Active

namespace Disabled

/-- `getCached` of src/src/core/conversion.ts lines 27-30: the cache is
disabled and every lookup misses. -/
def getCached (_url : String) : Option CacheEntry := none

/-- `setCache` of src/src/core/conversion.ts lines 32-34: a no-op. -/
def setCache (_url : String) (_data : CacheEntry) : Unit := ()

/-- `handleConversion` of src/src/core/conversion.ts lines 62-179: the
same body as the active variant, against the disabled cache (the
content-building arms are literally identical and shared through
`Active.buildResult`). -/
def handleConversion (cenv : ConvEnv) (url : String) (options : ConversionOptions) :
    Except String ConversionResult :=
  match (if options.useCache then getCached url else none) with
  | some c =>
    .ok { content := c.content, strategy := c.strategy, contentType := c.contentType,
          title := c.title, fromCache := true }
  | none =>
    let fetchResult := cenv.fetchRes url
    if !fetchResult.success then .error ((fetchResult.error).getD "Failed to fetch content")
    else
      match Active.buildResult cenv url options fetchResult with
      | .error e => .error e
      | .ok result =>
        let _ := if options.useCache then setCache url result else ()
        .ok { content := result.content, strategy := result.strategy,
              contentType := result.contentType, title := result.title,
              fromCache := false }

end Disabled

/-! ## Image source resolution and the Turndown configuration
(src/src/html-to-markdown.ts)

`new URL(baseUrl)` is a platform parser; it is a parameter `parse`
returning the `protocol`, `origin` and `pathname` members used by
`resolveUrl`, or `none` when construction throws.  A Turndown service is
modelled by its observable configuration: the replacement closures the
two `addRule` calls install, and the tag list passed to `remove`. -/

/-- The members of a parsed `URL` that `resolveUrl` reads. -/
structure UrlParts where
  protocol : String
  origin : String
  pathname : String

/-- `base.pathname.substring(0, base.pathname.lastIndexOf("/") + 1)`:
the prefix through the last slash, empty when there is no slash. -/
def upToLastSlash (s : String) : String :=
  String.mk (keepThroughLastSlash s.toList)
where
  /-- Keep everything through the last `/`; `[]` when none occurs. -/
  keepThroughLastSlash : List Char → List Char
    | [] => []
    | c :: cs =>
      let rest := keepThroughLastSlash cs
      if rest ≠ [] then c :: rest
      else if c == '/' then [c]
      else []

/-- `resolveUrl` (html-to-markdown.ts lines 21-56). -/
def resolveUrl (parse : String → Option UrlParts) (src : String) (baseUrl : Option String) :
    String :=
  match baseUrl with
  | none => src
  | some bu =>
    if src.isEmpty then src
    else if strStarts src "http://" || strStarts src "https://" || strStarts src "//" then
      if strStarts src "//" then
        match parse bu with
        | some base => base.protocol ++ src
        | none => "https:" ++ src
      else src
    else if strHas src ":" then src
    else
      match parse bu with
      | none => src
      | some base =>
        if strStarts src "/" then base.origin ++ src
        else base.origin ++ upToLastSlash base.pathname ++ src

/-- The attributes of an `<img>` element the image rule reads
(`getAttribute` returns `none` when the attribute is absent). -/
structure ImgAttrs where
  dataSrc : Option String := none
  dataLazySrc : Option String := none
  src : Option String := none
  alt : Option String := none
  title : Option String := none

/-- JS `a || b` on a nullable string against a string default. -/
def jsOrS (a : Option String) (b : String) : String :=
  match a with
  | some s => if s.isEmpty then b else s
  | none => b

/-- The source selected by the image rule:
`data-src || data-lazy-src || src || ""`. -/
def imgSource (n : ImgAttrs) : String :=
  jsOrS n.dataSrc (jsOrS n.dataLazySrc (jsOrS n.src ""))

/-- The replacement closure installed by `addRule("images", ...)`
(lines 100-124). -/
def imageReplacement (parse : String → Option UrlParts) (baseUrl : Option String)
    (n : ImgAttrs) : String :=
  let src := imgSource n
  let alt := jsOrS n.alt (jsOrS n.title "image")
  if src.isEmpty || strStarts src "data:" then ""
  else
    let absoluteSrc := resolveUrl parse src baseUrl
    match n.title with
    | some t =>
      if !t.isEmpty && t ≠ alt then "![" ++ alt ++ "](" ++ absoluteSrc ++ " \"" ++ t ++ "\")"
      else "![" ++ alt ++ "](" ++ absoluteSrc ++ ")"
    | none => "![" ++ alt ++ "](" ++ absoluteSrc ++ ")"

/-- What the figure rule reads of a `<figure>` element. -/
structure FigAttrs where
  img : Option ImgAttrs := none
  figcaption : Option String := none

/-- The replacement closure installed by `addRule("figure", ...)`
(lines 127-149); `content` is Turndown's rendering of the children. -/
def figureReplacement (parse : String → Option UrlParts) (baseUrl : Option String)
    (content : String) (n : FigAttrs) : String :=
  match n.img with
  | none => content
  | some img =>
    let src := imgSource img
    if src.isEmpty || strStarts src "data:" then content
    else
      let alt := jsOrS n.figcaption (jsOrS img.alt "image")
      let absoluteSrc := resolveUrl parse src baseUrl
      "\n\n![" ++ alt ++ "](" ++ absoluteSrc ++ ")\n\n"

/-- The observable configuration a `createTurndownService` call builds. -/
structure TurndownConfig where
  imagesRule : Option (ImgAttrs → String)
  figureRule : Option (String → FigAttrs → String)
  removed : List String

/-- `createTurndownService` (lines 94-159): with `preserveImages` the
image and figure rules are installed; without it the `img`, `figure`
and `iframe` tags are removed from the output entirely. -/
def createTurndownService (parse : String → Option UrlParts) (preserveImages : Bool)
    (baseUrl : Option String) : TurndownConfig :=
  if preserveImages then
    { imagesRule := some (imageReplacement parse baseUrl),
      figureRule := some (figureReplacement parse baseUrl),
      removed := [] }
  else
    { imagesRule := none, figureRule := none, removed := ["figure", "img", "iframe"] }

/-! ## General lemmas -/

/-- A pattern that does not accept the empty string and whose derivative
by `c` collapses to failure matches nowhere in a run of `c`s. -/
theorem reTest_replicate_false (r : RE) (c : Char)
    (h1 : r.nullable = false) (h2 : (r.deriv c).isFail = true) :
    ∀ n, reTest r (List.replicate n c) = false := by
  intro n
  induction n with
  | zero => simpa [reTest] using h1
  | succ k ih =>
    rw [List.replicate_succ]
    simp only [reTest, matchPref, h1, h2, Bool.not_true, Bool.false_and, Bool.false_or,
      Bool.and_false]
    exact ih

/-- A run of `n` letters `z`. -/
def zRun (n : Nat) : String := String.mk (List.replicate n 'z')

/-- Length of a `z` run. -/
theorem zRun_length (n : Nat) : (zRun n).length = n := by
  show (List.replicate n 'z').length = n
  exact List.length_replicate n 'z'

/-- No blocked pattern fires on a `z` run. -/
theorem isBlocked_zRun (n : Nat) : isBlocked (zRun n) = false := by
  unfold isBlocked
  have htake : (zRun n).toList.take 5000 = List.replicate (min 5000 n) 'z' := by
    show (List.replicate n 'z').take 5000 = _
    rw [List.take_replicate]
  rw [htake]
  have hlower : toLowerL (List.replicate (min 5000 n) 'z') = List.replicate (min 5000 n) 'z' := by
    unfold toLowerL
    rw [List.map_replicate]
    rw [show Char.toLower 'z' = 'z' by decide]
  rw [hlower, List.any_eq_false]
  intro p hp
  have hfacts : ∀ q ∈ blockedPatterns, q.nullable = false ∧ (q.deriv 'z').isFail = true := by
    decide
  simp [reTest_replicate_false p 'z' (hfacts p hp).1 (hfacts p hp).2]

/-- No paywall pattern fires on a `z` run. -/
theorem isPaywalled_zRun (n : Nat) : isPaywalled (zRun n) = false := by
  unfold isPaywalled
  have htake : (zRun n).toList.take 10000 = List.replicate (min 10000 n) 'z' := by
    show (List.replicate n 'z').take 10000 = _
    rw [List.take_replicate]
  rw [htake]
  have hlower : toLowerL (List.replicate (min 10000 n) 'z') =
      List.replicate (min 10000 n) 'z' := by
    unfold toLowerL
    rw [List.map_replicate]
    rw [show Char.toLower 'z' = 'z' by decide]
  rw [hlower, List.any_eq_false]
  intro p hp
  have hfacts : ∀ q ∈ paywallPatterns, q.nullable = false ∧ (q.deriv 'z').isFail = true := by
    decide
  simp [reTest_replicate_false p 'z' (hfacts p hp).1 (hfacts p hp).2]

/-- No Google-error pattern fires on a `z` run. -/
theorem isGoogleErrorPage_zRun (n : Nat) : isGoogleErrorPage (zRun n) = false := by
  unfold isGoogleErrorPage
  have htake : (zRun n).toList.take 3000 = List.replicate (min 3000 n) 'z' := by
    show (List.replicate n 'z').take 3000 = _
    rw [List.take_replicate]
  rw [htake]
  have hlower : toLowerL (List.replicate (min 3000 n) 'z') = List.replicate (min 3000 n) 'z' := by
    unfold toLowerL
    rw [List.map_replicate]
    rw [show Char.toLower 'z' = 'z' by decide]
  rw [hlower, List.any_eq_false]
  intro p hp
  have hfacts : ∀ q ∈ googleErrorPatterns, q.nullable = false ∧ (q.deriv 'z').isFail = true := by
    decide
  simp [reTest_replicate_false p 'z' (hfacts p hp).1 (hfacts p hp).2]

/-- `find?` returning a hit splits the list at the first satisfying
element. -/
theorem find?_split {α : Type} {p : α → Bool} {l : List α} {a : α}
    (h : l.find? p = some a) :
    p a = true ∧ ∃ pre post, l = pre ++ a :: post ∧ ∀ x ∈ pre, p x = false := by
  induction l with
  | nil => simp [List.find?] at h
  | cons b bs ih =>
    by_cases hb : p b = true
    · rw [List.find?_cons_of_pos _ hb] at h
      cases h
      exact ⟨hb, [], bs, rfl, by simp⟩
    · have hb' : p b = false := by simpa using hb
      rw [List.find?_cons_of_neg _ (by simp [hb'])] at h
      obtain ⟨hpa, pre, post, hsplit, hpre⟩ := ih h
      refine ⟨hpa, b :: pre, post, by simp [hsplit], ?_⟩
      intro x hx
      rcases List.mem_cons.mp hx with rfl | hx'
      · exact hb'
      · exact hpre x hx'

/-- `mapM` over `Option` succeeds when every element does. -/
theorem mapM_isSome {α β : Type} (f : α → Option β) :
    ∀ l : List α, (∀ a ∈ l, (f a).isSome) → ∃ rs, l.mapM f = some rs := by
  intro l
  induction l with
  | nil => exact fun _ => ⟨[], rfl⟩
  | cons a as ih =>
    intro h
    obtain ⟨b, hb⟩ := Option.isSome_iff_exists.mp (h a (by simp))
    obtain ⟨rs, hrs⟩ := ih (fun x hx => h x (by simp [hx]))
    refine ⟨b :: rs, ?_⟩
    rw [List.mapM_cons, hb, hrs]
    rfl

/-- On any strategy name other than `googlenews`, `executeStrategy`
returns a result record. -/
theorem execGo_isSome (orch : OrchRec) (env : OrchEnv) (url s : String)
    (h : s ≠ "googlenews") : (executeStrategyGo orch env url s).isSome := by
  unfold executeStrategyGo
  split_ifs with h1 h2 h3 h4 h5 h6 h7 h8 h9 <;> try rfl
  exact absurd (by simpa using h9) h

/-- Modelled from the claim wording, for comparison with `validPrimary`:
a result passes when it has non-empty markdown of length over 100, or
HTML of length at least 10000 flagged by none of the three validators —
with no requirement on the `success` flag in the HTML arm. -/
def specValidC1 (r : StrategyResult) : Bool :=
  (match r.markdown with
   | some m => !m.isEmpty && m.length > 100
   | none => false) ||
  (match r.html with
   | some h =>
     decide (10000 ≤ h.length) && !isBlocked h && !isPaywalled h && !isGoogleErrorPage h
   | none => false)

/-- A rejected racer the claim's wording would accept: an unsuccessful
result carrying 10000 units of clean HTML. -/
def rBadC1 : StrategyResult :=
  { success := false, html := some (zRun 10000), strategy := "direct" }

/-- An orchestrator environment in which every adapter returns `rBadC1`. -/
def envC1 : OrchEnv :=
  { direct := fun _ => rBadC1, googlebot := fun _ => rBadC1,
    facebookbot := fun _ => rBadC1, bingbot := fun _ => rBadC1,
    archive := fun _ => rBadC1, twelveft := fun _ => rBadC1,
    jina := fun _ => rBadC1, exa := fun _ => rBadC1,
    gnDecode := fun _ => .error "n",
    schedulePrimary := fun _ => PARALLEL_STRATEGIES,
    scheduleFallback := fun _ => FALLBACK_STRATEGIES }

/-- C1, counterexample: a result with `success=false` and 10000 units of
clean HTML satisfies the claim's validation predicate, yet the race
rejects it — `fetchParallel` requires `success=true` on the HTML arm, so
a race in which all four strategies complete with such a result returns
no winner. -/
theorem c1_counterexample :
    specValidC1 rBadC1 = true ∧ validPrimary rBadC1 = false ∧
    fetchParallelF 2 envC1 "https://example.com/a" PARALLEL_STRATEGIES = some none := by
  have hvp : validPrimary rBadC1 = false := by
    simp [validPrimary, validPrimary.validPrimaryHtml, rBadC1]
  refine ⟨?_, hvp, ?_⟩
  · simp [specValidC1, rBadC1, isBlocked_zRun, isPaywalled_zRun, isGoogleErrorPage_zRun,
      zRun_length]
  · have hdef : fetchParallelF 2 envC1 "https://example.com/a" PARALLEL_STRATEGIES =
        match PARALLEL_STRATEGIES.mapM (executeStrategyF 2 envC1 "https://example.com/a") with
        | none => none
        | some rs => some (rs.find? validPrimary) := rfl
    rw [hdef]
    rw [show PARALLEL_STRATEGIES.mapM (executeStrategyF 2 envC1 "https://example.com/a")
        = some [rBadC1, rBadC1, rBadC1, rBadC1] from rfl]
    show some ([rBadC1, rBadC1, rBadC1, rBadC1].find? validPrimary) = some none
    have hneg : ¬(validPrimary rBadC1 = true) := by simp [hvp]
    rw [List.find?_cons_of_neg _ hneg, List.find?_cons_of_neg _ hneg,
      List.find?_cons_of_neg _ hneg, List.find?_cons_of_neg _ hneg]
    rfl

/-- C1 as amended: in the primary race over `direct`, `googlebot`,
`facebookbot`, `bingbot`, taken in completion order, the first result
passing validation wins and everything failing it is rejected; a result
passes exactly when it has non-empty markdown of length over 100, or it
is marked successful and has HTML of length at least 10000 that none of
the three validators flags. -/
theorem c1_primary_race_validation :
    (∀ (fuel : Nat) (env : OrchEnv) (url : String) (arrival : List String),
      arrival.Perm PARALLEL_STRATEGIES →
      ∃ rs : List StrategyResult,
        arrival.mapM (executeStrategyF fuel env url) = some rs ∧
        fetchParallelF fuel env url arrival = some (rs.find? validPrimary) ∧
        (∀ r, rs.find? validPrimary = some r →
          validPrimary r = true ∧
            ∃ pre post, rs = pre ++ r :: post ∧ ∀ x ∈ pre, validPrimary x = false) ∧
        (rs.find? validPrimary = none → ∀ r ∈ rs, validPrimary r = false)) ∧
    (∀ r : StrategyResult, validPrimary r = true ↔
      ((∃ m, r.markdown = some m ∧ m.isEmpty = false ∧ 100 < m.length) ∨
       (r.success = true ∧ 10000 ≤ (r.html.getD "").length ∧
         isBlocked (r.html.getD "") = false ∧ isPaywalled (r.html.getD "") = false ∧
         isGoogleErrorPage (r.html.getD "") = false))) := by
  constructor
  · intro fuel env url arrival hperm
    have hsome : ∀ s ∈ arrival, (executeStrategyF fuel env url s).isSome := by
      intro s hs
      have hmem : s ∈ PARALLEL_STRATEGIES := hperm.mem_iff.mp hs
      have hne : s ≠ "googlenews" := by
        simp only [PARALLEL_STRATEGIES, List.mem_cons, List.mem_singleton] at hmem
        rcases hmem with rfl | rfl | rfl | rfl | h
        · decide
        · decide
        · decide
        · decide
        · exact absurd h (by simp)
      exact execGo_isSome (gnOrch fuel env) env url s hne
    obtain ⟨rs, hrs⟩ := mapM_isSome _ arrival hsome
    refine ⟨rs, hrs, ?_, ?_, ?_⟩
    · have hdef : fetchParallelF fuel env url arrival =
          match arrival.mapM (executeStrategyF fuel env url) with
          | none => none
          | some rs => some (rs.find? validPrimary) := rfl
      rw [hdef, hrs]
    · intro r hr
      obtain ⟨hp, pre, post, hsplit, hpre⟩ := find?_split hr
      exact ⟨hp, pre, post, hsplit, hpre⟩
    · intro hnone r hmem
      have := List.find?_eq_none.mp hnone r hmem
      simpa using this
  · intro r
    obtain ⟨succ, html, md, ttl, strat, err⟩ := r
    cases md with
    | none =>
      simp only [validPrimary, validPrimary.validPrimaryHtml]
      constructor
      · intro h
        right
        simp only [Bool.and_eq_true, Bool.not_eq_true', decide_eq_true_eq] at h
        exact ⟨h.1.1.1.1, h.2, h.1.1.1.2, h.1.1.2, h.1.2⟩
      · rintro (⟨m, hm', _, _⟩ | ⟨h1, h2, h3, h4, h5⟩)
        · exact absurd hm' (by simp)
        · simp [h1, h2, h3, h4, h5]
    | some m =>
      simp only [validPrimary, validPrimary.validPrimaryHtml]
      by_cases hcond : (!m.isEmpty && decide (m.length > 100)) = true
      · rw [if_pos hcond]
        simp only [Bool.and_eq_true, Bool.not_eq_true', decide_eq_true_eq] at hcond
        simp only [true_iff]
        left
        exact ⟨m, rfl, hcond.1, hcond.2⟩
      · rw [if_neg hcond]
        constructor
        · intro h
          right
          simp only [Bool.and_eq_true, Bool.not_eq_true', decide_eq_true_eq] at h
          exact ⟨h.1.1.1.1, h.2, h.1.1.1.2, h.1.1.2, h.1.2⟩
        · rintro (⟨m', hm', he, hl⟩ | ⟨h1, h2, h3, h4, h5⟩)
          · obtain rfl : m' = m := (Option.some.inj hm').symm
            exact absurd (by simp [he, hl]) hcond
          · simp [h1, h2, h3, h4, h5]

/-- C1 witness: the amended race statement instantiated at concrete
fuel, environment, URL and the canonical completion order. -/
theorem c1_primary_race_validation_witness :
    ∃ rs : List StrategyResult,
      PARALLEL_STRATEGIES.mapM (executeStrategyF 2 envC1 "https://example.com/a") = some rs ∧
      fetchParallelF 2 envC1 "https://example.com/a" PARALLEL_STRATEGIES =
        some (rs.find? validPrimary) ∧
      (∀ r, rs.find? validPrimary = some r →
        validPrimary r = true ∧
          ∃ pre post, rs = pre ++ r :: post ∧ ∀ x ∈ pre, validPrimary x = false) ∧
      (rs.find? validPrimary = none → ∀ r ∈ rs, validPrimary r = false) :=
  c1_primary_race_validation.1 2 envC1 "https://example.com/a" PARALLEL_STRATEGIES
    (List.Perm.refl _)

/-! ## Claim C3 -/

/-- A failing result for one named strategy. -/
def downR (n : String) : StrategyResult :=
  { success := false, strategy := n, error := some (n ++ " down") }

/-- An environment in which every adapter fails with a distinct error. -/
def envC3 : OrchEnv :=
  { direct := fun _ => downR "direct", googlebot := fun _ => downR "googlebot",
    facebookbot := fun _ => downR "facebookbot", bingbot := fun _ => downR "bingbot",
    archive := fun _ => downR "archive", twelveft := fun _ => downR "12ft",
    jina := fun _ => downR "jina", exa := fun _ => downR "exa",
    gnDecode := fun _ => .error "no decode",
    schedulePrimary := fun _ => PARALLEL_STRATEGIES,
    scheduleFallback := fun _ => FALLBACK_STRATEGIES }

/-- C3: with no explicit strategy, when both races fail on an ordinary
URL, the outcome's `attempts` list is empty and the aggregated message
is the bare `All strategies failed. Attempts: ` — the race helpers never
record the strategies they tried, so no `(strategy, error)` pair of the
eight raced strategies appears, contradicting the claim (and the
message's own template).  Evaluated at the failing input: every adapter
failing with a distinct error string. -/
theorem c3_attempts_not_recorded :
    (fetchWithStrategiesF 6 envC3 "https://example.com/a" { bypass := true }).map
      (fun r => (r.success, r.error, r.attempts)) =
    some (false, some "All strategies failed. Attempts: ", []) := by
  decide

/-! ## Claim C4 -/

set_option maxRecDepth 8192

/-- Environment exhibiting the missing recursion guard: the Google-News
decoder yields a URL that is itself a Google News URL (here: the input
itself), and `archive` fails, so the orchestrator re-enters the
`googlenews` strategy on every pass. -/
def envC9 : OrchEnv :=
  { direct := fun _ => downR "direct", googlebot := fun _ => downR "googlebot",
    facebookbot := fun _ => downR "facebookbot", bingbot := fun _ => downR "bingbot",
    archive := fun _ => downR "archive", twelveft := fun _ => downR "12ft",
    jina := fun _ => downR "jina", exa := fun _ => downR "exa",
    gnDecode := fun u => .ok u,
    schedulePrimary := fun _ => PARALLEL_STRATEGIES,
    scheduleFallback := fun _ => FALLBACK_STRATEGIES }

/-- On `envC9`, the orchestrator exhausts every fuel bound: the
Google-News branch re-enters itself on each pass. -/
theorem envC9_diverges :
    ∀ fuel, fetchWithStrategiesF fuel envC9
      "https://news.google.com/rss/articles/X" { bypass := true } = none := by
  intro fuel
  induction fuel using Nat.strong_induction_on with
  | _ n ih =>
    cases n with
    | zero => rfl
    | succ fuel =>
      rw [fetchWithStrategiesF_succ]
      show fetchTiersGo (gnOrch fuel envC9) envC9 "https://news.google.com/rss/articles/X"
        true = none
      unfold fetchTiersGo
      rw [if_pos (by decide :
        (strHas "https://news.google.com/rss/articles/X" "news.google.com" ||
          strHas "https://news.google.com/rss/articles/X" "/rss/articles/") = true)]
      rw [show executeStrategyGo (gnOrch fuel envC9) envC9
          "https://news.google.com/rss/articles/X" "archive" = some (downR "archive")
        from rfl]
      show (if ((downR "archive").success && !((downR "archive").html.getD "").isEmpty &&
          decide (((downR "archive").html.getD "").length > 10000)) = true
        then _ else _) = none
      rw [if_neg (by decide)]
      have hgn : executeStrategyGo (gnOrch fuel envC9) envC9
          "https://news.google.com/rss/articles/X" "googlenews" = none := by
        show fetchWithGoogleNewsGo (gnOrch fuel envC9) envC9
          "https://news.google.com/rss/articles/X" = none
        unfold fetchWithGoogleNewsGo
        show (if ("https://news.google.com/rss/articles/X" : String).isEmpty ||
            !strStarts "https://news.google.com/rss/articles/X" "http"
          then _ else _) = none
        rw [if_neg (by decide)]
        rw [show gnOrch fuel envC9 "https://news.google.com/rss/articles/X" = none
          from ih fuel (Nat.lt_succ_self _)]
      rw [hgn]

/-- C9: `fetchWithGoogleNews` never refuses a recursion — when the
decoder yields a Google News URL, the orchestrator calls itself on it
without any depth guard, and the run of `fetchWithStrategies` exhausts
every fuel bound: the step-indexed computation diverges (returns the
out-of-fuel marker `none`) for every fuel, so the claimed guard and the
termination it would give do not exist in the code. -/
theorem c9_googlenews_recursion_unbounded :
    ∀ fuel, fetchWithStrategiesF fuel envC9
      "https://news.google.com/rss/articles/X" { bypass := true } = none :=
  envC9_diverges

/-! ## Cache lemmas -/

/-- A non-empty string's `isEmpty` is false. -/
theorem isEmpty_false_of_ne (s : String) (h : s ≠ "") : s.isEmpty = false := by
  rw [Bool.eq_false_iff]
  intro hc
  exact h ((String.isEmpty_iff s).mp hc)

/-- `find?` over an in-place key update. -/
theorem find?_update (m : Cache) (k : String) (v : TimedEntry) :
    (m.map (fun p => if p.1 == k then (k, v) else p)).find? (fun p => p.1 == k) =
      if (m.find? (fun p => p.1 == k)).isSome then some (k, v) else none := by
  induction m with
  | nil => rfl
  | cons p ps ih =>
    by_cases hp : (p.1 == k) = true
    · simp only [List.map_cons, List.find?_cons, hp, if_pos rfl]
      simp
    · simp only [List.map_cons, List.find?_cons, hp]
      rw [if_neg (by simp [hp])]
      simp only [hp]
      exact ih

/-- `find?` skips a prefix with no hit. -/
theorem find?_append_none {α : Type} {p : α → Bool} {l₁ l₂ : List α}
    (h : l₁.find? p = none) : (l₁ ++ l₂).find? p = l₂.find? p := by
  induction l₁ with
  | nil => rfl
  | cons a as ih =>
    by_cases ha : p a = true
    · rw [List.find?_cons_of_pos _ ha] at h
      simp at h
    · rw [List.find?_cons_of_neg _ (by simp [ha])] at h
      rw [List.cons_append, List.find?_cons_of_neg _ (by simp [ha])]
      exact ih h

/-- Looking up the key just written into a JS map. -/
theorem jsMapGet_set_self (m : Cache) (k : String) (v : TimedEntry) :
    jsMapGet (jsMapSet m k v) k = some v := by
  unfold jsMapGet jsMapSet
  by_cases h : (m.find? (fun p => p.1 == k)).isSome
  · rw [if_pos h, find?_update, if_pos h]
  · rw [if_neg h]
    rw [find?_append_none (by
      cases hf : m.find? (fun p => p.1 == k) with
      | none => rfl
      | some q => rw [hf] at h; simp at h)]
    simp [List.find?_cons]

/-- A JS map `set` grows the map by at most one entry. -/
theorem jsMapSet_length (m : Cache) (k : String) (v : TimedEntry) :
    (jsMapSet m k v).length ≤ m.length + 1 := by
  unfold jsMapSet
  by_cases h : (m.find? (fun p => p.1 == k)).isSome
  · rw [if_pos h, List.length_map]
    omega
  · rw [if_neg h, List.length_append]
    simp

/-- Looking up the key written by `setCache`. -/
theorem jsMapGet_setCache_self (now : Nat) (url : String) (e : CacheEntry) (c : Cache) :
    jsMapGet (Active.setCache now url e c) url = some { data := e, timestamp := now } := by
  unfold Active.setCache
  exact jsMapGet_set_self _ _ _

/-- A fresh cache hit is returned with the cache untouched. -/
theorem getCached_hit (now : Nat) (url : String) (cache : Cache) (e : CacheEntry) (ts : Nat)
    (h : jsMapGet cache url = some { data := e, timestamp := ts })
    (hts : now - ts ≤ CACHE_TTL) :
    Active.getCached now url cache = (some e, cache) := by
  unfold Active.getCached
  rw [h]
  show (if CACHE_TTL < now - ts then ((none : Option CacheEntry), jsMapDelete cache url)
    else (some e, cache)) = _
  rw [if_neg (by omega)]

/-- A stale entry is deleted on read. -/
theorem getCached_expired (now : Nat) (url : String) (cache : Cache) (entry : TimedEntry)
    (h : jsMapGet cache url = some entry) (hts : CACHE_TTL < now - entry.timestamp) :
    Active.getCached now url cache = (none, jsMapDelete cache url) := by
  unfold Active.getCached
  rw [h]
  show (if CACHE_TTL < now - entry.timestamp
      then ((none : Option CacheEntry), jsMapDelete cache url)
    else (some entry.data, cache)) = _
  rw [if_pos hts]

/-- Every hit `getCached` reports comes from a fresh stored entry, and
the cache is unchanged. -/
theorem getCached_sound (now : Nat) (url : String) (cache c' : Cache) (e : CacheEntry)
    (h : Active.getCached now url cache = (some e, c')) :
    ∃ ts, jsMapGet cache url = some { data := e, timestamp := ts } ∧
      now - ts ≤ CACHE_TTL ∧ c' = cache := by
  unfold Active.getCached at h
  cases hg : jsMapGet cache url with
  | none => rw [hg] at h; simp at h
  | some entry =>
    rw [hg] at h
    change (if CACHE_TTL < now - entry.timestamp
        then ((none : Option CacheEntry), jsMapDelete cache url)
      else (some entry.data, cache)) = (some e, c') at h
    by_cases hts : CACHE_TTL < now - entry.timestamp
    · rw [if_pos hts] at h
      simp at h
    · rw [if_neg hts] at h
      refine ⟨entry.timestamp, ?_, by omega, (congrArg Prod.snd h).symm⟩
      have hde : entry.data = e := Option.some.inj (congrArg Prod.fst h)
      have hent : ({ data := e, timestamp := entry.timestamp } : TimedEntry) = entry := by
        rw [← hde]
      exact congrArg some hent.symm

/-- Deleting the head key of a JS map shortens it. -/
theorem jsMapDelete_cons_length (k : String) (v : TimedEntry) (rest : Cache) :
    (jsMapDelete ((k, v) :: rest) k).length ≤ rest.length := by
  unfold jsMapDelete
  rw [List.filter_cons]
  simp only [bne_self_eq_false, Bool.false_eq_true, if_false]
  exact List.length_filter_le _ _

/-- `setCache` keeps a capped cache capped (for non-empty keys). -/
theorem setCache_cap (now : Nat) (url : String) (e : CacheEntry) (cache : Cache)
    (hk : ∀ p ∈ cache, p.1 ≠ "") (hc : cache.length ≤ 100) :
    (Active.setCache now url e cache).length ≤ 100 := by
  unfold Active.setCache
  refine le_trans (jsMapSet_length _ _ _) ?_
  by_cases hlen : 100 ≤ cache.length
  · rw [if_pos hlen]
    cases cache with
    | nil => simp at hlen
    | cons p rest =>
      obtain ⟨k, v⟩ := p
      rw [List.head?_cons]
      show (if k.isEmpty then (k, v) :: rest else jsMapDelete ((k, v) :: rest) k).length + 1
        ≤ 100
      rw [isEmpty_false_of_ne k (hk (k, v) (by simp))]
      simp only [Bool.false_eq_true, if_false]
      have h1 := jsMapDelete_cons_length k v rest
      have h2 : ((k, v) :: rest).length ≤ 100 := hc
      simp only [List.length_cons] at h2
      omega
  · rw [if_neg hlen]
    omega

/-! ## Claim C2 -/

/-- C2 as amended: in the active-cache conversion variant (part_007),
every successful convert with `useCache=true` stores the result keyed by
the URL; a second convert of the same URL within the 10-minute TTL
returns the stored content with `fromCache=true` without consulting the
fetcher; an entry strictly older than the TTL is evicted on read and a
hit is always fresh; and insertion drops the FIFO-oldest entry at the
100-entry cap, so a capped cache (with non-empty URL keys) never exceeds
100 entries.  The src/src/core variant disables the cache entirely (see
the counterexample). -/
theorem c2_cache_semantics :
    (∀ (cenv : ConvEnv) (now : Nat) (url : String) (opts : ConversionOptions)
        (cache : Cache) (r : ConversionResult) (cache' : Cache),
      opts.useCache = true →
      Active.handleConversion cenv now url opts cache = .ok (r, cache') →
      r.fromCache = false →
      jsMapGet cache' url = some
        { data := { content := r.content, strategy := r.strategy,
                    contentType := r.contentType, title := r.title },
          timestamp := now }) ∧
    (∀ (cenv cenv₂ : ConvEnv) (t₁ t₂ : Nat) (url : String)
        (opts opts₂ : ConversionOptions) (cache : Cache) (r : ConversionResult)
        (c₁ : Cache),
      opts.useCache = true → opts₂.useCache = true →
      Active.handleConversion cenv t₁ url opts cache = .ok (r, c₁) →
      r.fromCache = false →
      t₂ - t₁ ≤ CACHE_TTL →
      Active.handleConversion cenv₂ t₂ url opts₂ c₁ =
        .ok ({ content := r.content, strategy := r.strategy,
               contentType := r.contentType, title := r.title,
               fromCache := true }, c₁)) ∧
    ((∀ (now : Nat) (url : String) (cache : Cache) (entry : TimedEntry),
        jsMapGet cache url = some entry →
        CACHE_TTL < now - entry.timestamp →
        Active.getCached now url cache = (none, jsMapDelete cache url)) ∧
     (∀ (now : Nat) (url : String) (cache c' : Cache) (e : CacheEntry),
        Active.getCached now url cache = (some e, c') →
        ∃ ts, jsMapGet cache url = some { data := e, timestamp := ts } ∧
          now - ts ≤ CACHE_TTL ∧ c' = cache)) ∧
    ((∀ (now : Nat) (url : String) (e : CacheEntry) (k : String) (v : TimedEntry)
        (rest : Cache),
        k ≠ "" → 100 ≤ ((k, v) :: rest : Cache).length →
        Active.setCache now url e ((k, v) :: rest) =
          jsMapSet (jsMapDelete ((k, v) :: rest) k) url { data := e, timestamp := now }) ∧
     (∀ (now : Nat) (url : String) (e : CacheEntry) (cache : Cache),
        (∀ p ∈ cache, p.1 ≠ "") → cache.length ≤ 100 →
        (Active.setCache now url e cache).length ≤ 100)) := by
  have ha : ∀ (cenv : ConvEnv) (now : Nat) (url : String) (opts : ConversionOptions)
      (cache : Cache) (r : ConversionResult) (cache' : Cache),
      opts.useCache = true →
      Active.handleConversion cenv now url opts cache = .ok (r, cache') →
      r.fromCache = false →
      jsMapGet cache' url = some
        { data := { content := r.content, strategy := r.strategy,
                    contentType := r.contentType, title := r.title },
          timestamp := now } := by
    intro cenv now url opts cache r cache' hu hrun hfc
    unfold Active.handleConversion at hrun
    rw [hu] at hrun
    simp only [if_true] at hrun
    rcases hgc : Active.getCached now url cache with ⟨copt, cache₁⟩
    rw [hgc] at hrun
    cases copt with
    | some c =>
      simp only [] at hrun
      obtain ⟨hr, _⟩ := Prod.mk.injEq .. ▸ Except.ok.inj hrun
      rw [← hr] at hfc
      simp at hfc
    | none =>
      simp only [] at hrun
      cases hs : (cenv.fetchRes url).success with
      | false =>
        rw [hs] at hrun
        simp at hrun
      | true =>
        rw [hs] at hrun
        simp only [Bool.not_true, Bool.false_eq_true, if_false] at hrun
        cases hb : Active.buildResult cenv url opts (cenv.fetchRes url) with
        | error e => rw [hb] at hrun; simp at hrun
        | ok result =>
          rw [hb] at hrun
          simp only [] at hrun
          obtain ⟨hr, hcache⟩ := Prod.mk.injEq .. ▸ Except.ok.inj hrun
          rw [← hcache, ← hr]
          exact jsMapGet_setCache_self now url result cache₁
  refine ⟨ha, ?_, ⟨?_, ?_⟩, ⟨?_, ?_⟩⟩
  · intro cenv cenv₂ t₁ t₂ url opts opts₂ cache r c₁ hu hu₂ hrun hfc httl
    have hget := ha cenv t₁ url opts cache r c₁ hu hrun hfc
    unfold Active.handleConversion
    rw [hu₂]
    simp only [if_true]
    rw [getCached_hit t₂ url c₁ _ t₁ hget httl]
  · intro now url cache entry h hts
    exact getCached_expired now url cache entry h hts
  · intro now url cache c' e h
    exact getCached_sound now url cache c' e h
  · intro now url e k v rest hk hlen
    unfold Active.setCache
    rw [if_pos hlen, List.head?_cons]
    show jsMapSet (if k.isEmpty then (k, v) :: rest else jsMapDelete ((k, v) :: rest) k)
      url { data := e, timestamp := now } = _
    rw [isEmpty_false_of_ne k hk]
    simp only [Bool.false_eq_true, if_false]
  · intro now url e cache hk hc
    exact setCache_cap now url e cache hk hc

/-- A conversion environment whose fetcher returns markdown. -/
def cenvC2 : ConvEnv :=
  { fetchRes := fun _ =>
      { markdown := some "cached sample body", strategy := "jina", success := true },
    extractFromJsonLd := fun _ => none,
    generateJsonData := fun _ _ _ _ => "", generateMarkdownText := fun _ _ _ => "",
    stringifyMd := fun _ => "", stringifyLd := fun _ => "", nowISO := "t" }

/-- C2, counterexample: the repository's second conversion façade
(src/src/core/conversion.ts) disables the cache — `getCached` always
misses and `setCache` is a no-op, and `handleConversion` keeps no cache
state at all, so a convert with `useCache=true` is a pure value with
`fromCache=false`; the second of two successive converts of the same URL
within 10 minutes is this very value again, never `fromCache=true`, and
nothing is ever stored, refuting the claim for that façade. -/
theorem c2_counterexample :
    Disabled.handleConversion cenvC2 "https://example.com/a" {} =
      .ok { content := "cached sample body", strategy := "jina",
            contentType := "text/plain; charset=utf-8", title := none,
            fromCache := false } := by
  rfl

/-- The cache entry stored by the C2 witness conversion. -/
def entryC2 : CacheEntry :=
  { content := "cached sample body", strategy := "jina",
    contentType := "text/plain; charset=utf-8", title := none }

/-- C2 witness: the part of the amended statement about a second convert
within the TTL, applied to a concrete first conversion at time 0 and a
second at time 1000 against the active-cache variant. -/
theorem c2_cache_semantics_witness :
    Active.handleConversion cenvC2 1000 "https://example.com/a" {}
      [("https://example.com/a", { data := entryC2, timestamp := 0 })] =
      .ok ({ content := "cached sample body", strategy := "jina",
             contentType := "text/plain; charset=utf-8", title := none,
             fromCache := true },
           [("https://example.com/a", { data := entryC2, timestamp := 0 })]) := by
  have h := c2_cache_semantics.2.1 cenvC2 cenvC2 0 1000 "https://example.com/a" {} {} []
    { content := "cached sample body", strategy := "jina",
      contentType := "text/plain; charset=utf-8", title := none, fromCache := false }
    [("https://example.com/a", { data := entryC2, timestamp := 0 })]
    rfl rfl rfl rfl (by decide)
  exact h

/-! ## Claim C10 -/

/-- C10: the active-cache variant keys by URL alone and caches the fully
formatted output: a convert with `jsonFormat=true` stores the JSON
envelope under `application/json`, and a second convert of the same URL
within the TTL with `jsonFormat=false` returns that stored JSON envelope
and its `application/json` content type with `fromCache=true` — whatever
environment the second call runs against — rather than the plain-text
Markdown rendering the second options would have produced. -/
theorem c10_cache_key_is_url_alone :
    ∀ (cenv : ConvEnv) (url m : String) (t₁ t₂ : Nat) (r₁ : ConversionResult) (c₁ : Cache),
      (cenv.fetchRes url).success = true →
      (cenv.fetchRes url).markdown = some m →
      m.isEmpty = false →
      t₂ - t₁ ≤ CACHE_TTL →
      Active.handleConversion cenv t₁ url { jsonFormat := true } [] = .ok (r₁, c₁) →
      r₁.contentType = "application/json" ∧
      r₁.content = cenv.stringifyMd
        { url := url, title := "Extracted Content", date := cenv.nowISO,
          content := m, strategy := (cenv.fetchRes url).strategy,
          elapsed := (cenv.fetchRes url).elapsed } ∧
      ∀ cenv₂ : ConvEnv,
        Active.handleConversion cenv₂ t₂ url { jsonFormat := false } c₁ =
          .ok ({ content := r₁.content, strategy := r₁.strategy,
                 contentType := "application/json", title := r₁.title,
                 fromCache := true }, c₁) := by
  intro cenv url m t₁ t₂ r₁ c₁ hs hm hme httl hrun
  have hbuild : Active.buildResult cenv url { jsonFormat := true } (cenv.fetchRes url) =
      .ok { content := cenv.stringifyMd
              { url := url, title := "Extracted Content", date := cenv.nowISO,
                content := m, strategy := (cenv.fetchRes url).strategy,
                elapsed := (cenv.fetchRes url).elapsed },
            strategy := (cenv.fetchRes url).strategy,
            contentType := "application/json" } := by
    unfold Active.buildResult
    rw [hm]
    show (if !m.isEmpty then _ else _) = _
    rw [hme]
    rfl
  have hfirst : Active.handleConversion cenv t₁ url { jsonFormat := true } [] =
      .ok ({ content := cenv.stringifyMd
               { url := url, title := "Extracted Content", date := cenv.nowISO,
                 content := m, strategy := (cenv.fetchRes url).strategy,
                 elapsed := (cenv.fetchRes url).elapsed },
             strategy := (cenv.fetchRes url).strategy,
             contentType := "application/json", title := none, fromCache := false },
           Active.setCache t₁ url
             { content := cenv.stringifyMd
                 { url := url, title := "Extracted Content", date := cenv.nowISO,
                   content := m, strategy := (cenv.fetchRes url).strategy,
                   elapsed := (cenv.fetchRes url).elapsed },
               strategy := (cenv.fetchRes url).strategy,
               contentType := "application/json" } []) := by
    unfold Active.handleConversion
    show (if !(cenv.fetchRes url).success then _ else _) = _
    rw [hs]
    simp only [Bool.not_true, Bool.false_eq_true, if_false]
    rw [hbuild]
    rfl
  have hsame := hfirst.symm.trans hrun
  obtain ⟨hr, hc⟩ := Prod.mk.injEq .. ▸ Except.ok.inj hsame
  refine ⟨by rw [← hr], by rw [← hr], ?_⟩
  intro cenv₂
  have hget : jsMapGet c₁ url = some
      { data := { content := r₁.content, strategy := r₁.strategy,
                  contentType := r₁.contentType, title := r₁.title },
        timestamp := t₁ } := by
    rw [← hc, ← hr]
    exact jsMapGet_setCache_self t₁ url _ []
  unfold Active.handleConversion
  rw [getCached_hit t₂ url c₁ _ t₁ hget httl]
  rw [← hr]
  rfl

/-- Conversion environment for the C10 witness, with an observable
`JSON.stringify`. -/
def cenvC10 : ConvEnv :=
  { fetchRes := fun _ =>
      { markdown := some "body md", strategy := "jina", success := true },
    extractFromJsonLd := fun _ => none,
    generateJsonData := fun _ _ _ _ => "", generateMarkdownText := fun _ _ _ => "",
    stringifyMd := fun e => "JSON(" ++ e.content ++ ")",
    stringifyLd := fun _ => "", nowISO := "t" }

/-- C10 witness: a convert with `jsonFormat=true` at time 0, then a
convert with `jsonFormat=false` at the TTL boundary, returns the stored
JSON envelope with `application/json` from the cache. -/
theorem c10_cache_key_is_url_alone_witness :
    Active.handleConversion cenvC10 600000 "https://example.com/k" { jsonFormat := false }
      [("https://example.com/k",
        { data := { content := "JSON(body md)", strategy := "jina",
                    contentType := "application/json", title := none },
          timestamp := 0 })] =
      .ok ({ content := "JSON(body md)", strategy := "jina",
             contentType := "application/json", title := none, fromCache := true },
           [("https://example.com/k",
             { data := { content := "JSON(body md)", strategy := "jina",
                         contentType := "application/json", title := none },
               timestamp := 0 })]) := by
  have h := c10_cache_key_is_url_alone cenvC10 "https://example.com/k" "body md" 0 600000
    { content := "JSON(body md)", strategy := "jina", contentType := "application/json",
      title := none, fromCache := false }
    [("https://example.com/k",
      { data := { content := "JSON(body md)", strategy := "jina",
                  contentType := "application/json", title := none },
        timestamp := 0 })]
    rfl rfl rfl (by decide) rfl
  exact h.2.2 cenvC10

/-! ## Claim C6 -/

/-- Strict UTF-8 decoding of pure-ASCII bytes yields those characters. -/
theorem utf8Decode_ascii :
    ∀ bytes : List Nat, (∀ b ∈ bytes, b < 128) →
      utf8Decode bytes = some (bytes.map Char.ofNat) := by
  intro bytes h
  induction bytes with
  | nil => rfl
  | cons b rest ih =>
    have hb : b < 128 := h b (by simp)
    have hstep : utf8Step (b :: rest) = some (Char.ofNat b, rest) := by
      simp only [utf8Step]
      rw [if_pos hb]
    show utf8DecodeGo (b :: rest).length (b :: rest) = _
    rw [show (b :: rest).length = rest.length + 1 from rfl]
    rw [show utf8DecodeGo (rest.length + 1) (b :: rest) =
      (match utf8Step (b :: rest) with
       | none => none
       | some (c, rem) => (utf8DecodeGo rest.length rem).map (fun cs => c :: cs)) from rfl]
    rw [hstep]
    show (utf8DecodeGo rest.length rest).map (fun cs => Char.ofNat b :: cs) = _
    rw [show utf8DecodeGo rest.length rest = utf8Decode rest from rfl,
      ih (fun x hx => h x (by simp [hx]))]
    rfl

/-- The platform GBK decoder applied to the UTF-8 encoding of `你好`
(GBK reads those six bytes as this three-character mojibake). -/
def gbkC6 : List Nat → String := fun _ => "浣犲ソ"

/-- C6, counterexample: a Content-Type header whose charset label is
`utf-8` but which contains the substring `gb` elsewhere.  The claim's
step 1 (charset label starts with `gb`) does not fire, so the claim
decodes the valid-UTF-8 body as UTF-8; the code tests the whole header
for the substring `gb` and decodes as GBK. -/
theorem c6_counterexample :
    decodeResponse gbkC6 "text/html; x=gb; charset=utf-8"
      [228, 189, 160, 229, 165, 189] = "浣犲ソ" ∧
    decodeResponseSpec gbkC6 "text/html; x=gb; charset=utf-8"
      [228, 189, 160, 229, 165, 189] = "你好" ∧
    ("浣犲ソ" : String) ≠ "你好" := by
  refine ⟨rfl, ?_, by decide⟩
  decide

/-- C6 as amended: `decodeResponse` decodes as GBK whenever the
lowercased Content-Type header contains the substring `gb` anywhere
(not only when the charset label starts with `gb`); otherwise it
attempts strict UTF-8, re-decoding as GBK when the first 1000 units of
the decoded text contain a `charset=gb` declaration (bare, double- or
single-quoted), and falls back to GBK when strict UTF-8 fails.  In
particular, an all-ASCII valid-UTF-8 body decodes to itself (GBK being
ASCII-transparent), and a GBK body served with `charset=gb2312` decodes
to the correct CJK text. -/
theorem c6_decode_selection :
    (∀ (gbk : List Nat → String) (ct : String) (bytes : List Nat),
      (listHas "gb".toList (toLowerL ct.toList) = true →
        decodeResponse gbk ct bytes = gbk bytes) ∧
      (listHas "gb".toList (toLowerL ct.toList) = false →
        (∀ cs, utf8Decode bytes = some cs →
          ((listHas "charset=gb".toList (toLowerL (cs.take 1000)) ||
            listHas "charset=\"gb".toList (toLowerL (cs.take 1000)) ||
            listHas ("charset=" ++ apoS ++ "gb").toList (toLowerL (cs.take 1000))) = true →
            decodeResponse gbk ct bytes = gbk bytes) ∧
          ((listHas "charset=gb".toList (toLowerL (cs.take 1000)) ||
            listHas "charset=\"gb".toList (toLowerL (cs.take 1000)) ||
            listHas ("charset=" ++ apoS ++ "gb").toList (toLowerL (cs.take 1000))) = false →
            decodeResponse gbk ct bytes = String.mk cs)) ∧
        (utf8Decode bytes = none → decodeResponse gbk ct bytes = gbk bytes))) ∧
    (∀ (gbk : List Nat → String) (ct : String) (bytes : List Nat),
      (∀ bs, (∀ b ∈ bs, b < 128) → gbk bs = String.mk (bs.map Char.ofNat)) →
      (∀ b ∈ bytes, b < 128) →
      decodeResponse gbk ct bytes = String.mk (bytes.map Char.ofNat)) ∧
    (∀ (gbk : List Nat → String) (bytes : List Nat),
      gbk bytes = "你好" →
      decodeResponse gbk "text/html; charset=gb2312" bytes = "你好") := by
  have hmain : ∀ (gbk : List Nat → String) (ct : String) (bytes : List Nat),
      (listHas "gb".toList (toLowerL ct.toList) = true →
        decodeResponse gbk ct bytes = gbk bytes) ∧
      (listHas "gb".toList (toLowerL ct.toList) = false →
        (∀ cs, utf8Decode bytes = some cs →
          ((listHas "charset=gb".toList (toLowerL (cs.take 1000)) ||
            listHas "charset=\"gb".toList (toLowerL (cs.take 1000)) ||
            listHas ("charset=" ++ apoS ++ "gb").toList (toLowerL (cs.take 1000))) = true →
            decodeResponse gbk ct bytes = gbk bytes) ∧
          ((listHas "charset=gb".toList (toLowerL (cs.take 1000)) ||
            listHas "charset=\"gb".toList (toLowerL (cs.take 1000)) ||
            listHas ("charset=" ++ apoS ++ "gb").toList (toLowerL (cs.take 1000))) = false →
            decodeResponse gbk ct bytes = String.mk cs)) ∧
        (utf8Decode bytes = none → decodeResponse gbk ct bytes = gbk bytes)) := by
    intro gbk ct bytes
    constructor
    · intro h
      unfold decodeResponse
      rw [if_pos h]
    · intro h
      constructor
      · intro cs hcs
        constructor
        · intro hmeta
          unfold decodeResponse
          rw [if_neg (show ¬(listHas "gb".toList (toLowerL ct.toList) = true) by
            rw [h]; decide), hcs]
          show (if (listHas "charset=gb".toList (toLowerL (cs.take 1000)) ||
            listHas "charset=\"gb".toList (toLowerL (cs.take 1000)) ||
            listHas ("charset=" ++ apoS ++ "gb").toList (toLowerL (cs.take 1000))) = true
            then gbk bytes else String.mk cs) = gbk bytes
          rw [if_pos hmeta]
        · intro hmeta
          unfold decodeResponse
          rw [if_neg (show ¬(listHas "gb".toList (toLowerL ct.toList) = true) by
            rw [h]; decide), hcs]
          show (if (listHas "charset=gb".toList (toLowerL (cs.take 1000)) ||
            listHas "charset=\"gb".toList (toLowerL (cs.take 1000)) ||
            listHas ("charset=" ++ apoS ++ "gb").toList (toLowerL (cs.take 1000))) = true
            then gbk bytes else String.mk cs) = String.mk cs
          rw [if_neg (show ¬((listHas "charset=gb".toList (toLowerL (cs.take 1000)) ||
            listHas "charset=\"gb".toList (toLowerL (cs.take 1000)) ||
            listHas ("charset=" ++ apoS ++ "gb").toList (toLowerL (cs.take 1000))) = true) by
            rw [hmeta]; decide)]
      · intro hnone
        unfold decodeResponse
        rw [if_neg (show ¬(listHas "gb".toList (toLowerL ct.toList) = true) by
          rw [h]; decide), hnone]
  refine ⟨hmain, ?_, ?_⟩
  · intro gbk ct bytes hgbk hascii
    by_cases h : listHas "gb".toList (toLowerL ct.toList) = true
    · rw [(hmain gbk ct bytes).1 h]
      exact hgbk bytes hascii
    · have h' : listHas "gb".toList (toLowerL ct.toList) = false := by
        simpa using h
      have hcs := utf8Decode_ascii bytes hascii
      by_cases hmeta : (listHas "charset=gb".toList
            (toLowerL ((bytes.map Char.ofNat).take 1000)) ||
          listHas "charset=\"gb".toList (toLowerL ((bytes.map Char.ofNat).take 1000)) ||
          listHas ("charset=" ++ apoS ++ "gb").toList
            (toLowerL ((bytes.map Char.ofNat).take 1000))) = true
      · rw [(((hmain gbk ct bytes).2 h').1 _ hcs).1 hmeta]
        exact hgbk bytes hascii
      · rw [(((hmain gbk ct bytes).2 h').1 _ hcs).2 (by simpa using hmeta)]
  · intro gbk bytes hgbk
    rw [(hmain gbk "text/html; charset=gb2312" bytes).1 (by decide)]
    exact hgbk

/-- C6 witness: the amended statement applied to a GBK decoder value and
a concrete gb2312 header. -/
theorem c6_decode_selection_witness :
    decodeResponse (fun _ => "你好") "text/html; charset=gb2312" [1, 2] = "你好" :=
  c6_decode_selection.2.2 (fun _ => "你好") [1, 2] rfl

/-! ## Claim C7 -/

/-- An empty-bodied 200 `text/html` response. -/
def respEmpty : HttpResp :=
  { ok := true, status := 200, statusText := "OK", contentType := some "text/html",
    bytes := .ok [], text := .ok "" }

/-- An Exa JSON parse for the counterexample: the MCP text entry parses
to a results array whose first element carries an id but neither `text`
nor `content`. -/
def pjC7 : String → Option ExaParsedObj :=
  fun _ => some { results := some [{ id := some "r1" }] }

/-- C7, counterexample, twice: (i) `fetchDirect` on an empty 200
`text/html` body returns `success=true` with `html` present but empty —
the validators pass on the empty string; (ii) `fetchWithExa` on a first
result with only an id returns `success=true` with no content at all —
`markdown: firstResult.text || firstResult.content` is undefined.  So
`success ⇒ (html non-empty ∨ markdown non-empty)` fails both ways. -/
theorem c7_counterexample :
    (fetchDirect (fun _ => "") (.ok respEmpty) =
      { success := true, html := some "", markdown := none, title := none,
        strategy := "direct", error := none } ∧
     ("" : String).isEmpty = true) ∧
    fetchWithExa pjC7 true (.ok (some "json")) =
      { success := true, html := none, markdown := none, title := none,
        strategy := "exa", error := none } := by
  exact ⟨⟨by decide, rfl⟩, by decide⟩

/-- C7 as amended: a success carries its content field for most
adapters — `success=true` implies the `html` field is present for
`direct`, `googlebot`, `facebookbot`, `bingbot`, `12ft` and `archive`,
and the `markdown` field is present, non-empty and of length at least
50 for `jina` — but the claimed invariant fails twice: the HTML may be
empty (counterexample (i)) and `exa` can succeed with no content field
at all (counterexample (ii)).  The `googlenews` strategy adds no
guarantee of its own: a decode failure or invalid decoded URL yields
`success=false`, and otherwise its record is determined by the recursive
orchestrator outcome, a success copying that outcome's `html` and
`markdown` fields verbatim. -/
theorem c7_success_carries_content :
    (∀ (gbk : List Nat → String) (oc : FetchOutcome),
      ((fetchDirect gbk oc).success = true → (fetchDirect gbk oc).html.isSome = true) ∧
      ((fetchWithGooglebot gbk oc).success = true →
        (fetchWithGooglebot gbk oc).html.isSome = true) ∧
      ((fetchWithFacebookbot gbk oc).success = true →
        (fetchWithFacebookbot gbk oc).html.isSome = true) ∧
      ((fetchWithBingbot gbk oc).success = true →
        (fetchWithBingbot gbk oc).html.isSome = true) ∧
      ((fetchWith12ft oc).success = true → (fetchWith12ft oc).html.isSome = true)) ∧
    (∀ oc : FetchOutcome, (fetchWithJina oc).success = true →
      ∃ m, (fetchWithJina oc).markdown = some m ∧ m.isEmpty = false ∧ 50 ≤ m.length) ∧
    (∀ aenv : ArchiveEnv, (fetchFromArchive aenv).success = true →
      (fetchFromArchive aenv).html.isSome = true) ∧
    (∀ (orch : OrchRec) (env : OrchEnv) (url : String),
      (∀ e, env.gnDecode url = .error e →
        (fetchWithGoogleNewsGo orch env url).map (fun r => r.success) = some false) ∧
      (∀ decodedUrl, env.gnDecode url = .ok decodedUrl →
        (decodedUrl.isEmpty || !strStarts decodedUrl "http") = true →
        (fetchWithGoogleNewsGo orch env url).map (fun r => r.success) = some false) ∧
      (∀ decodedUrl result, env.gnDecode url = .ok decodedUrl →
        (decodedUrl.isEmpty || !strStarts decodedUrl "http") = false →
        orch decodedUrl = some result → result.success = true →
        fetchWithGoogleNewsGo orch env url =
          some { success := true, html := result.html, markdown := result.markdown,
                 title := result.title, strategy := "googlenews-" ++ result.strategy,
                 error := result.error }) ∧
      (∀ decodedUrl result, env.gnDecode url = .ok decodedUrl →
        (decodedUrl.isEmpty || !strStarts decodedUrl "http") = false →
        orch decodedUrl = some result → result.success = false →
        fetchWithGoogleNewsGo orch env url =
          some { success := false,
                 error := some ((result.error).getD "Failed to fetch decoded URL"),
                 strategy := "googlenews" })) := by
  have hbotE : ∀ (s : String) (gbk : List Nat → String) (oc : FetchOutcome)
      (r : StrategyResult), fetchBotE s gbk oc = .ok r →
      r.success = true → r.html.isSome = true := by
    intro s gbk oc r h hs
    unfold fetchBotE at h
    split at h
    · exact Except.noConfusion h
    · split_ifs at h
      · injection h with h2
        subst h2
        simp [failWith] at hs
      · injection h with h2
        subst h2
        simp [failWith] at hs
      · split at h
        · exact Except.noConfusion h
        · injection h with h2
          subst h2
          rfl
  have hdirE : ∀ (gbk : List Nat → String) (oc : FetchOutcome) (r : StrategyResult),
      fetchDirectE gbk oc = .ok r → r.success = true → r.html.isSome = true := by
    intro gbk oc r h hs
    unfold fetchDirectE at h
    split at h
    · exact Except.noConfusion h
    · split_ifs at h
      · injection h with h2
        subst h2
        simp [failWith] at hs
      · injection h with h2
        subst h2
        simp [failWith] at hs
      · split at h
        · exact Except.noConfusion h
        · split_ifs at h
          · injection h with h2
            subst h2
            simp [failWith] at hs
          · injection h with h2
            subst h2
            simp [failWith] at hs
          · injection h with h2
            subst h2
            rfl
  have h12E : ∀ (oc : FetchOutcome) (r : StrategyResult),
      fetchWith12ftE oc = .ok r → r.success = true → r.html.isSome = true := by
    intro oc r h hs
    unfold fetchWith12ftE at h
    split at h
    · exact Except.noConfusion h
    · split_ifs at h
      · injection h with h2
        subst h2
        simp [failWith] at hs
      · injection h with h2
        subst h2
        simp [failWith] at hs
      · split at h
        · exact Except.noConfusion h
        · split_ifs at h
          · injection h with h2
            subst h2
            simp [failWith] at hs
          · injection h with h2
            subst h2
            rfl
  have hjinaE : ∀ (oc : FetchOutcome) (r : StrategyResult),
      fetchWithJinaE oc = .ok r → r.success = true →
      ∃ m, r.markdown = some m ∧ m.isEmpty = false ∧ 50 ≤ m.length := by
    intro oc r h hs
    unfold fetchWithJinaE at h
    split at h
    · exact Except.noConfusion h
    · split_ifs at h
      · injection h with h2
        subst h2
        simp [failWith] at hs
      · split at h
        · exact Except.noConfusion h
        · split_ifs at h with hgood
          · injection h with h2
            subst h2
            simp [failWith] at hs
          · injection h with h2
            subst h2
            refine ⟨_, rfl, ?_, ?_⟩
            · simp only [Bool.or_eq_true, not_or] at hgood
              simpa using hgood.1
            · simp only [Bool.or_eq_true, not_or, decide_eq_true_eq] at hgood
              omega
  have hadE : ∀ (aenv : ArchiveEnv) (r : StrategyResult),
      archiveDirectE aenv = .ok r → r.success = true → r.html.isSome = true := by
    intro aenv r h hs
    unfold archiveDirectE at h
    split at h
    · exact Except.noConfusion h
    · split_ifs at h
      · injection h with h2
        subst h2
        simp [failWith] at hs
      · split at h
        · exact Except.noConfusion h
        · injection h with h2
          subst h2
          rfl
  have harcE : ∀ (aenv : ArchiveEnv) (r : StrategyResult),
      fetchFromArchiveE aenv = .ok r → r.success = true → r.html.isSome = true := by
    intro aenv r h hs
    unfold fetchFromArchiveE at h
    split at h
    · exact Except.noConfusion h
    · split_ifs at h
      · injection h with h2
        subst h2
        simp [failWith] at hs
      · split at h
        · exact Except.noConfusion h
        · exact hadE aenv r h hs
        · split_ifs at h
          · exact hadE aenv r h hs
          · split at h
            · exact Except.noConfusion h
            · split_ifs at h
              · injection h with h2
                subst h2
                simp [failWith] at hs
              · split at h
                · exact Except.noConfusion h
                · injection h with h2
                  subst h2
                  rfl
  refine ⟨fun gbk oc => ⟨?_, ?_, ?_, ?_, ?_⟩, fun oc => ?_, fun aenv => ?_,
    fun orch env url => ⟨?_, ?_, ?_, ?_⟩⟩
  · unfold fetchDirect
    cases hE : fetchDirectE gbk oc with
    | error e =>
      intro hs
      exact Bool.noConfusion hs
    | ok r =>
      exact hdirE gbk oc r hE
  · unfold fetchWithGooglebot
    cases hE : fetchBotE "googlebot" gbk oc with
    | error e =>
      intro hs
      exact Bool.noConfusion hs
    | ok r =>
      exact hbotE "googlebot" gbk oc r hE
  · unfold fetchWithFacebookbot
    cases hE : fetchBotE "facebookbot" gbk oc with
    | error e =>
      intro hs
      exact Bool.noConfusion hs
    | ok r =>
      exact hbotE "facebookbot" gbk oc r hE
  · unfold fetchWithBingbot
    cases hE : fetchBotE "bingbot" gbk oc with
    | error e =>
      intro hs
      exact Bool.noConfusion hs
    | ok r =>
      exact hbotE "bingbot" gbk oc r hE
  · unfold fetchWith12ft
    cases hE : fetchWith12ftE oc with
    | error e =>
      intro hs
      exact Bool.noConfusion hs
    | ok r =>
      exact h12E oc r hE
  · unfold fetchWithJina
    cases hE : fetchWithJinaE oc with
    | error e =>
      intro hs
      exact Bool.noConfusion hs
    | ok r =>
      exact hjinaE oc r hE
  · unfold fetchFromArchive
    cases hE : fetchFromArchiveE aenv with
    | error e =>
      intro hs
      exact Bool.noConfusion hs
    | ok r =>
      exact harcE aenv r hE
  · intro e h
    unfold fetchWithGoogleNewsGo
    rw [h]
    rfl
  · intro decodedUrl h hinv
    unfold fetchWithGoogleNewsGo
    rw [h]
    show ((if decodedUrl.isEmpty || !strStarts decodedUrl "http" then _ else _) :
      Option StrategyResult).map (fun r => r.success) = some false
    rw [if_pos hinv]
    rfl
  · intro decodedUrl result h hinv horch hres
    unfold fetchWithGoogleNewsGo
    rw [h]
    show ((if decodedUrl.isEmpty || !strStarts decodedUrl "http" then _ else _) :
      Option StrategyResult) = _
    rw [if_neg (by simp [hinv]), horch]
    show (if result.success = true then _ else _) = _
    rw [if_pos hres]
  · intro decodedUrl result h hinv horch hres
    unfold fetchWithGoogleNewsGo
    rw [h]
    show ((if decodedUrl.isEmpty || !strStarts decodedUrl "http" then _ else _) :
      Option StrategyResult) = _
    rw [if_neg (by simp [hinv]), horch]
    show (if result.success = true then _ else _) = _
    rw [if_neg (by simp [hres])]

/-- C7 witness: the amended statement applied to the concrete empty-body
response (the content field is present for the successful direct fetch). -/
theorem c7_success_carries_content_witness :
    (fetchDirect (fun _ => "") (.ok respEmpty)).html.isSome = true :=
  (c7_success_carries_content.1 (fun _ => "") (.ok respEmpty)).1 (by decide)

/-! ## Claim C5 -/

/-- C5, counterexample: executing the `googlenews` strategy need not
return a result record — with a decoder that yields the Google News URL
itself and `archive` failing, `executeStrategy(url, "googlenews")`
re-enters the orchestrator without bound: the step-indexed run returns
the out-of-fuel marker `none` at fuel 100 and indeed at every fuel. -/
theorem c5_counterexample :
    executeStrategyF 100 envC9 "https://news.google.com/rss/articles/X" "googlenews" =
      none ∧
    ∀ fuel, executeStrategyF fuel envC9
      "https://news.google.com/rss/articles/X" "googlenews" = none := by
  have hall : ∀ fuel, executeStrategyF fuel envC9
      "https://news.google.com/rss/articles/X" "googlenews" = none := by
    intro fuel
    show fetchWithGoogleNewsGo (gnOrch fuel envC9) envC9
      "https://news.google.com/rss/articles/X" = none
    unfold fetchWithGoogleNewsGo
    show (if ("https://news.google.com/rss/articles/X" : String).isEmpty ||
        !strStarts "https://news.google.com/rss/articles/X" "http"
      then _ else _) = none
    rw [if_neg (by decide)]
    rw [show gnOrch fuel envC9 "https://news.google.com/rss/articles/X" = none
      from envC9_diverges fuel]
  exact ⟨hall 100, hall⟩

/-- C5 as amended: every adapter other than the `googlenews` strategy
returns a result record on every input and never raises.  (i) Every
transport rejection (the `catch` argument) of the eight adapters —
direct, googlebot, facebookbot, bingbot, 12ft, jina, archive, exa — is
mapped to the failure record `failWith name e` (for exa, a failed
session initialisation gives its fixed failure record); (ii) `failWith`
has `success=false` and carries the message in `error`; (iii) every
adapter result with `success=false` has an error string present;
(iv) `executeStrategy` on any strategy name other than `googlenews`
returns a result record; (v) a failing Google News decode is caught into
a `success=false` record with the message in `error` — but when the
decode succeeds, the `googlenews` strategy recurses into the
orchestrator with no guard and may return no record at all (see the
counterexample). -/
theorem c5_adapters_never_raise :
    (∀ (gbk : List Nat → String) (e : String),
      fetchDirect gbk (.error e) = failWith "direct" e ∧
      fetchWithGooglebot gbk (.error e) = failWith "googlebot" e ∧
      fetchWithFacebookbot gbk (.error e) = failWith "facebookbot" e ∧
      fetchWithBingbot gbk (.error e) = failWith "bingbot" e ∧
      fetchWith12ft (.error e) = failWith "12ft" e ∧
      fetchWithJina (.error e) = failWith "jina" e) ∧
    (∀ (aenv : ArchiveEnv) (e : String), aenv.check = .error e →
      fetchFromArchive aenv = failWith "archive" e) ∧
    (∀ (pj : String → Option ExaParsedObj) (e : String),
      fetchWithExa pj true (.error e) = failWith "exa" e ∧
      fetchWithExa pj false (.error e) =
        failWith "exa" "Failed to initialize Exa MCP session") ∧
    (∀ s e : String, (failWith s e).success = false ∧ (failWith s e).error = some e) ∧
    (∀ (gbk : List Nat → String) (oc : FetchOutcome),
      ((fetchDirect gbk oc).success = false → (fetchDirect gbk oc).error.isSome = true) ∧
      ((fetchWithGooglebot gbk oc).success = false →
        (fetchWithGooglebot gbk oc).error.isSome = true) ∧
      ((fetchWithFacebookbot gbk oc).success = false →
        (fetchWithFacebookbot gbk oc).error.isSome = true) ∧
      ((fetchWithBingbot gbk oc).success = false →
        (fetchWithBingbot gbk oc).error.isSome = true) ∧
      ((fetchWith12ft oc).success = false → (fetchWith12ft oc).error.isSome = true) ∧
      ((fetchWithJina oc).success = false → (fetchWithJina oc).error.isSome = true)) ∧
    (∀ aenv : ArchiveEnv, (fetchFromArchive aenv).success = false →
      (fetchFromArchive aenv).error.isSome = true) ∧
    (∀ (pj : String → Option ExaParsedObj) (init : Bool)
        (oc : Except String (Option String)),
      (fetchWithExa pj init oc).success = false →
      (fetchWithExa pj init oc).error.isSome = true) ∧
    (∀ (orch : OrchRec) (env : OrchEnv) (url s : String), s ≠ "googlenews" →
      (executeStrategyGo orch env url s).isSome = true) ∧
    (∀ (orch : OrchRec) (env : OrchEnv) (url e : String), env.gnDecode url = .error e →
      executeStrategyGo orch env url "googlenews" =
        some { success := false, error := some ("Google News Decode Failed: " ++ e),
               strategy := "googlenews" }) := by
  have hbotE : ∀ (s : String) (gbk : List Nat → String) (oc : FetchOutcome)
      (r : StrategyResult), fetchBotE s gbk oc = .ok r →
      r.success = false → r.error.isSome = true := by
    intro s gbk oc r h hs
    unfold fetchBotE at h
    split at h
    · exact Except.noConfusion h
    · split_ifs at h
      · injection h with h2
        subst h2
        rfl
      · injection h with h2
        subst h2
        rfl
      · split at h
        · exact Except.noConfusion h
        · injection h with h2
          subst h2
          exact Bool.noConfusion hs
  have hdirE : ∀ (gbk : List Nat → String) (oc : FetchOutcome) (r : StrategyResult),
      fetchDirectE gbk oc = .ok r → r.success = false → r.error.isSome = true := by
    intro gbk oc r h hs
    unfold fetchDirectE at h
    split at h
    · exact Except.noConfusion h
    · split_ifs at h
      · injection h with h2
        subst h2
        rfl
      · injection h with h2
        subst h2
        rfl
      · split at h
        · exact Except.noConfusion h
        · split_ifs at h
          · injection h with h2
            subst h2
            rfl
          · injection h with h2
            subst h2
            rfl
          · injection h with h2
            subst h2
            exact Bool.noConfusion hs
  have h12E : ∀ (oc : FetchOutcome) (r : StrategyResult),
      fetchWith12ftE oc = .ok r → r.success = false → r.error.isSome = true := by
    intro oc r h hs
    unfold fetchWith12ftE at h
    split at h
    · exact Except.noConfusion h
    · split_ifs at h
      · injection h with h2
        subst h2
        rfl
      · injection h with h2
        subst h2
        rfl
      · split at h
        · exact Except.noConfusion h
        · split_ifs at h
          · injection h with h2
            subst h2
            rfl
          · injection h with h2
            subst h2
            exact Bool.noConfusion hs
  have hjinaE : ∀ (oc : FetchOutcome) (r : StrategyResult),
      fetchWithJinaE oc = .ok r → r.success = false → r.error.isSome = true := by
    intro oc r h hs
    unfold fetchWithJinaE at h
    split at h
    · exact Except.noConfusion h
    · split_ifs at h
      · injection h with h2
        subst h2
        rfl
      · split at h
        · exact Except.noConfusion h
        · split_ifs at h
          · injection h with h2
            subst h2
            rfl
          · injection h with h2
            subst h2
            exact Bool.noConfusion hs
  have hadE : ∀ (aenv : ArchiveEnv) (r : StrategyResult),
      archiveDirectE aenv = .ok r → r.success = false → r.error.isSome = true := by
    intro aenv r h hs
    unfold archiveDirectE at h
    split at h
    · exact Except.noConfusion h
    · split_ifs at h
      · injection h with h2
        subst h2
        rfl
      · split at h
        · exact Except.noConfusion h
        · injection h with h2
          subst h2
          exact Bool.noConfusion hs
  have harE : ∀ (aenv : ArchiveEnv) (r : StrategyResult),
      fetchFromArchiveE aenv = .ok r → r.success = false → r.error.isSome = true := by
    intro aenv r h hs
    unfold fetchFromArchiveE at h
    split at h
    · exact Except.noConfusion h
    · split_ifs at h
      · injection h with h2
        subst h2
        rfl
      · split at h
        · exact Except.noConfusion h
        · exact hadE aenv r h hs
        · split_ifs at h
          · exact hadE aenv r h hs
          · split at h
            · exact Except.noConfusion h
            · split_ifs at h
              · injection h with h2
                subst h2
                rfl
              · split at h
                · exact Except.noConfusion h
                · injection h with h2
                  subst h2
                  exact Bool.noConfusion hs
  have hcore : ∀ (pj : String → Option ExaParsedObj) (te : Option String)
      (r : StrategyResult), fetchWithExaCore pj te = r →
      r.success = false → r.error.isSome = true := by
    intro pj te r h hs
    unfold fetchWithExaCore at h
    split at h
    · subst h
      rfl
    · split at h
      · subst h
        rfl
      · split at h
        · split at h
          · subst h
            rfl
          · split at h
            · subst h
              rfl
            · subst h
              exact Bool.noConfusion hs
          · split at h
            · subst h
              exact Bool.noConfusion hs
            · subst h
              exact Bool.noConfusion hs
        · split at h
          · subst h
            rfl
          · subst h
            exact Bool.noConfusion hs
  refine ⟨fun gbk e => ⟨rfl, rfl, rfl, rfl, rfl, rfl⟩, ?_,
    fun pj e => ⟨rfl, rfl⟩, fun s e => ⟨rfl, rfl⟩,
    fun gbk oc => ⟨?_, ?_, ?_, ?_, ?_, ?_⟩, ?_, ?_,
    fun orch env url s h => execGo_isSome orch env url s h, fun orch env url e h => ?_⟩
  · intro aenv e h
    have hE : fetchFromArchiveE aenv = .error e := by
      unfold fetchFromArchiveE
      rw [h]
    unfold fetchFromArchive
    rw [hE]
  · unfold fetchDirect
    cases hE : fetchDirectE gbk oc with
    | error e =>
      intro _
      rfl
    | ok r =>
      exact hdirE gbk oc r hE
  · unfold fetchWithGooglebot
    cases hE : fetchBotE "googlebot" gbk oc with
    | error e =>
      intro _
      rfl
    | ok r =>
      exact hbotE "googlebot" gbk oc r hE
  · unfold fetchWithFacebookbot
    cases hE : fetchBotE "facebookbot" gbk oc with
    | error e =>
      intro _
      rfl
    | ok r =>
      exact hbotE "facebookbot" gbk oc r hE
  · unfold fetchWithBingbot
    cases hE : fetchBotE "bingbot" gbk oc with
    | error e =>
      intro _
      rfl
    | ok r =>
      exact hbotE "bingbot" gbk oc r hE
  · unfold fetchWith12ft
    cases hE : fetchWith12ftE oc with
    | error e =>
      intro _
      rfl
    | ok r =>
      exact h12E oc r hE
  · unfold fetchWithJina
    cases hE : fetchWithJinaE oc with
    | error e =>
      intro _
      rfl
    | ok r =>
      exact hjinaE oc r hE
  · intro aenv
    unfold fetchFromArchive
    cases hE : fetchFromArchiveE aenv with
    | error e =>
      intro _
      rfl
    | ok r =>
      exact harE aenv r hE
  · intro pj init oc
    unfold fetchWithExa fetchWithExaE
    split_ifs with h1
    · intro _
      rfl
    · cases oc with
      | error e =>
        intro _
        rfl
      | ok te =>
        intro hs
        exact hcore pj te _ rfl hs
  · unfold executeStrategyGo
    rw [if_neg (by decide), if_neg (by decide), if_neg (by decide), if_neg (by decide),
      if_neg (by decide), if_neg (by decide), if_neg (by decide), if_neg (by decide),
      if_pos (by decide)]
    unfold fetchWithGoogleNewsGo
    rw [h]

/-- An orchestration environment whose Google News decoder rejects. -/
def envC5 : OrchEnv :=
  { direct := fun _ => failWith "direct" "down", googlebot := fun _ => failWith "googlebot" "down",
    facebookbot := fun _ => failWith "facebookbot" "down",
    bingbot := fun _ => failWith "bingbot" "down", archive := fun _ => failWith "archive" "down",
    twelveft := fun _ => failWith "12ft" "down", jina := fun _ => failWith "jina" "down",
    exa := fun _ => failWith "exa" "down", gnDecode := fun _ => .error "boom",
    schedulePrimary := fun _ => PARALLEL_STRATEGIES,
    scheduleFallback := fun _ => FALLBACK_STRATEGIES }

/-- An archive environment whose availability check rejects. -/
def aenvC5 : ArchiveEnv :=
  { check := .error "boom", closest := .ok none,
    direct := .error "x", snap := fun _ => .error "x" }

/-- C5 witness: a transport rejection is caught by the direct adapter
and by the archive adapter, and a failing Google News decode is caught
by `executeStrategy`. -/
theorem c5_adapters_never_raise_witness :
    fetchDirect (fun _ => "") (.error "boom") = failWith "direct" "boom" ∧
    fetchFromArchive aenvC5 = failWith "archive" "boom" ∧
    executeStrategyGo (fun _ => none) envC5 "https://news.google.com/x" "googlenews" =
      some { success := false, error := some ("Google News Decode Failed: " ++ "boom"),
             strategy := "googlenews" } :=
  ⟨(c5_adapters_never_raise.1 (fun _ => "") "boom").1,
   c5_adapters_never_raise.2.1 aenvC5 "boom" rfl,
   c5_adapters_never_raise.2.2.2.2.2.2.2.2 (fun _ => none) envC5
     "https://news.google.com/x" "boom" rfl⟩

/-! ## Claim C8 -/

/-- `a || b` on a missing or empty nullable string yields the default. -/
theorem jsOrS_blank (a : Option String) (b : String) (h : a = none ∨ a = some "") :
    jsOrS a b = b := by
  rcases h with rfl | rfl
  · rfl
  · rfl

/-- `a || b` on a present non-empty string yields the string. -/
theorem jsOrS_some (d b : String) (h : d.isEmpty = false) : jsOrS (some d) b = d := by
  show (if d.isEmpty then b else d) = d
  rw [if_neg (by simp [h])]

/-- A string with prefix `c :: p` starts with the character `c`. -/
theorem strStarts_head (s : String) (c : Char) (p : List Char)
    (h : strStarts s (String.mk (c :: p)) = true) : ∃ cs, s = String.mk (c :: cs) := by
  obtain ⟨l⟩ := s
  cases l with
  | nil => exact Bool.noConfusion h
  | cons a as =>
    have h2 : ((c == a) && listStarts p as) = true := h
    obtain rfl := eq_of_beq (Bool.and_eq_true_iff.mp h2).1
    exact ⟨as, rfl⟩

/-- If `pre ++ ':' :: post` is a prefix of `l`, a colon occurs in `l`. -/
theorem listHas_colon_of_starts (pre : List Char) :
    ∀ (post l : List Char), listStarts (pre ++ ':' :: post) l = true →
      listHas [':'] l = true := by
  induction pre with
  | nil =>
    intro post l h
    cases l with
    | nil => exact Bool.noConfusion h
    | cons a as =>
      have h2 : ((':' == a) && listStarts post as) = true := h
      obtain rfl := eq_of_beq (Bool.and_eq_true_iff.mp h2).1
      rfl
  | cons p ps ih =>
    intro post l h
    cases l with
    | nil => exact Bool.noConfusion h
    | cons a as =>
      have h2 : ((p == a) && listStarts (ps ++ ':' :: post) as) = true := h
      have h3 := ih post as (Bool.and_eq_true_iff.mp h2).2
      show (listStarts [':'] (a :: as) || listHas [':'] as) = true
      rw [h3, Bool.or_true]

/-- A string with a prefix containing a colon contains a colon. -/
theorem strHas_colon_of_starts (s : String) (pre post : List Char)
    (h : strStarts s (String.mk (pre ++ ':' :: post)) = true) : strHas s ":" = true :=
  listHas_colon_of_starts pre post s.toList h

/-- Not starting with `/` implies not starting with `//`. -/
theorem not_slashslash_of_not_slash (s : String) (h : strStarts s "/" = false) :
    strStarts s "//" = false := by
  obtain ⟨l⟩ := s
  cases l with
  | nil => rfl
  | cons c cs =>
    have h2 : (('/' == c) && true) = false := h
    have hc : ('/' == c) = false := by simpa using h2
    show (('/' == c) && listStarts ['/'] cs) = false
    rw [hc]
    rfl

/-- C8: the image handling of the HTML→Markdown converter.  (i) The
image source is `data-src`, then `data-lazy-src`, then `src`, a missing
or empty attribute falling through; (ii) an empty or `data:`-prefixed
source produces no image output; (iii) `resolveUrl` maps a
protocol-relative source to the base protocol plus the source, passes
absolute `http(s)` sources and other-scheme sources through unchanged,
prepends the base origin to an absolute path, and the base origin plus
the parent directory of the base pathname to a bare relative path;
(iv) with `preserveImages=false` no rules are installed and the `figure`,
`img` and `iframe` tags are removed, while with `preserveImages=true`
the two replacement rules are installed. -/
theorem c8_image_handling :
    (∀ n : ImgAttrs,
      (∀ d, n.dataSrc = some d → d.isEmpty = false → imgSource n = d) ∧
      ((n.dataSrc = none ∨ n.dataSrc = some "") →
        ∀ d, n.dataLazySrc = some d → d.isEmpty = false → imgSource n = d) ∧
      ((n.dataSrc = none ∨ n.dataSrc = some "") →
        (n.dataLazySrc = none ∨ n.dataLazySrc = some "") →
        ∀ d, n.src = some d → d.isEmpty = false → imgSource n = d) ∧
      ((n.dataSrc = none ∨ n.dataSrc = some "") →
        (n.dataLazySrc = none ∨ n.dataLazySrc = some "") →
        (n.src = none ∨ n.src = some "") → imgSource n = "")) ∧
    (∀ (parse : String → Option UrlParts) (baseUrl : Option String) (n : ImgAttrs),
      (imgSource n).isEmpty = true ∨ strStarts (imgSource n) "data:" = true →
      imageReplacement parse baseUrl n = "") ∧
    (∀ (parse : String → Option UrlParts) (src bu : String) (base : UrlParts),
      parse bu = some base →
      (strStarts src "//" = true → resolveUrl parse src (some bu) = base.protocol ++ src) ∧
      ((strStarts src "http://" = true ∨ strStarts src "https://" = true) →
        resolveUrl parse src (some bu) = src) ∧
      (strStarts src "http://" = false → strStarts src "https://" = false →
        strStarts src "//" = false → strHas src ":" = true →
        resolveUrl parse src (some bu) = src) ∧
      (strStarts src "/" = true → strStarts src "//" = false → strHas src ":" = false →
        resolveUrl parse src (some bu) = base.origin ++ src) ∧
      (src.isEmpty = false → strStarts src "/" = false → strHas src ":" = false →
        resolveUrl parse src (some bu) =
          base.origin ++ upToLastSlash base.pathname ++ src)) ∧
    (∀ (parse : String → Option UrlParts) (baseUrl : Option String),
      createTurndownService parse false baseUrl =
        { imagesRule := none, figureRule := none, removed := ["figure", "img", "iframe"] } ∧
      createTurndownService parse true baseUrl =
        { imagesRule := some (imageReplacement parse baseUrl),
          figureRule := some (figureReplacement parse baseUrl), removed := [] }) := by
  refine ⟨fun n => ⟨?_, ?_, ?_, ?_⟩, ?_, ?_, fun parse baseUrl => ⟨rfl, rfl⟩⟩
  · intro d hd hne
    unfold imgSource
    rw [hd]
    exact jsOrS_some d _ hne
  · intro h0 d hd hne
    unfold imgSource
    rw [jsOrS_blank n.dataSrc _ h0, hd]
    exact jsOrS_some d _ hne
  · intro h0 h1 d hd hne
    unfold imgSource
    rw [jsOrS_blank n.dataSrc _ h0, jsOrS_blank n.dataLazySrc _ h1, hd]
    exact jsOrS_some d _ hne
  · intro h0 h1 h2
    unfold imgSource
    rw [jsOrS_blank n.dataSrc _ h0, jsOrS_blank n.dataLazySrc _ h1,
      jsOrS_blank n.src _ h2]
  · intro parse baseUrl n h
    unfold imageReplacement
    show (if (imgSource n).isEmpty || strStarts (imgSource n) "data:" then "" else _) = ""
    rcases h with h | h
    · rw [if_pos (by rw [h]; rfl)]
    · rw [if_pos (by rw [h, Bool.or_true])]
  · intro parse src bu base hpb
    refine ⟨?_, ?_, ?_, ?_, ?_⟩
    · intro h
      have hne : src.isEmpty = false := by
        cases hic : src.isEmpty
        · rfl
        · rw [(String.isEmpty_iff src).mp hic] at h
          exact absurd h (by decide)
      simp only [resolveUrl]
      rw [if_neg (by simp [hne]), if_pos (by rw [h, Bool.or_true]), if_pos h, hpb]
    · intro hh
      have hor : (strStarts src "http://" || strStarts src "https://"
          || strStarts src "//") = true := by
        rcases hh with h | h
        · rw [h]
          rfl
        · rw [h, Bool.or_true, Bool.true_or]
      obtain ⟨cs, rfl⟩ : ∃ cs, src = String.mk ('h' :: cs) := by
        rcases hh with h | h
        · exact strStarts_head src 'h' ['t', 't', 'p', ':', '/', '/'] h
        · exact strStarts_head src 'h' ['t', 't', 'p', 's', ':', '/', '/'] h
      have hne : (String.mk ('h' :: cs)).isEmpty = false :=
        isEmpty_false_of_ne _ (fun hcon => List.noConfusion (congrArg String.data hcon))
      have hff : strStarts (String.mk ('h' :: cs)) "//" = false := rfl
      simp only [resolveUrl]
      rw [if_neg (by simp [hne]), if_pos hor, if_neg (by simp [hff])]
    · intro hhf hsf h2f hc
      have hne : src.isEmpty = false := by
        cases hic : src.isEmpty
        · rfl
        · rw [(String.isEmpty_iff src).mp hic] at hc
          exact absurd hc (by decide)
      simp only [resolveUrl]
      rw [if_neg (by simp [hne]), if_neg (by simp [hhf, hsf, h2f]), if_pos hc]
    · intro h1 h2f hcf
      have hne : src.isEmpty = false := by
        cases hic : src.isEmpty
        · rfl
        · rw [(String.isEmpty_iff src).mp hic] at h1
          exact absurd h1 (by decide)
      have hhf : strStarts src "http://" = false := by
        cases hx : strStarts src "http://"
        · rfl
        · exact absurd (strHas_colon_of_starts src ['h', 't', 't', 'p'] ['/', '/'] hx)
            (by simp [hcf])
      have hsf : strStarts src "https://" = false := by
        cases hx : strStarts src "https://"
        · rfl
        · exact absurd (strHas_colon_of_starts src ['h', 't', 't', 'p', 's'] ['/', '/'] hx)
            (by simp [hcf])
      simp only [resolveUrl]
      rw [if_neg (by simp [hne]), if_neg (by simp [hhf, hsf, h2f]), if_neg (by simp [hcf]),
        hpb]
      show (if strStarts src "/" then base.origin ++ src else _) = base.origin ++ src
      rw [if_pos h1]
    · intro hne hsf0 hcf
      have h2f : strStarts src "//" = false := not_slashslash_of_not_slash src hsf0
      have hhf : strStarts src "http://" = false := by
        cases hx : strStarts src "http://"
        · rfl
        · exact absurd (strHas_colon_of_starts src ['h', 't', 't', 'p'] ['/', '/'] hx)
            (by simp [hcf])
      have hsf : strStarts src "https://" = false := by
        cases hx : strStarts src "https://"
        · rfl
        · exact absurd (strHas_colon_of_starts src ['h', 't', 't', 'p', 's'] ['/', '/'] hx)
            (by simp [hcf])
      simp only [resolveUrl]
      rw [if_neg (by simp [hne]), if_neg (by simp [hhf, hsf, h2f]), if_neg (by simp [hcf]),
        hpb]
      show (if strStarts src "/" then _
            else base.origin ++ upToLastSlash base.pathname ++ src) =
        base.origin ++ upToLastSlash base.pathname ++ src
      rw [if_neg (by simp [hsf0])]

/-- A base-URL parser recognising only the example page. -/
def parseC8 : String → Option UrlParts := fun u =>
  if u == "https://ex.com/x/y.html" then
    some { protocol := "https:", origin := "https://ex.com", pathname := "/x/y.html" }
  else none

/-- C8 witness: on the lazy-loaded example image — `data-src` an absolute
path, `src` a `data:` placeholder, base `https://ex.com/x/y.html` — the
source taken is the `data-src` value, resolved against the base origin. -/
theorem c8_image_handling_witness :
    imgSource { dataSrc := some "/a/b.png", src := some "data:img" } = "/a/b.png" ∧
    resolveUrl parseC8 "/a/b.png" (some "https://ex.com/x/y.html") =
      "https://ex.com" ++ "/a/b.png" :=
  ⟨(c8_image_handling.1 { dataSrc := some "/a/b.png", src := some "data:img" }).1
      "/a/b.png" rfl rfl,
   ((c8_image_handling.2.2.1 parseC8 "/a/b.png" "https://ex.com/x/y.html"
      { protocol := "https:", origin := "https://ex.com", pathname := "/x/y.html" }
      rfl).2.2.2.1) rfl rfl rfl⟩
